import Mathlib

/-!
Verification development for the vSphere server plugin
(`vsphere_server_plugin/server.py`).  The Python functions relevant to the
frozen claims are shallowly embedded as executable Lean definitions: Python
dictionaries become association lists over a value type `PVal`, raised
exceptions become an `Except PyError` result, and platform-client calls
become explicit parameters or recorded actions.
-/

deriving instance DecidableEq for Except

namespace VspherePlugin

/-- Python values that occur in the network dictionaries handled by the
plugin: `None`, booleans, integers and strings. -/
inductive PVal where
  | vNone
  | vBool (b : Bool)
  | vInt (n : Int)
  | vStr (s : String)
deriving DecidableEq, Repr

/-- Python `==` on `PVal` (note that in Python `True == 1` and
`False == 0`; values of otherwise different types compare unequal). -/
def pyEq : PVal → PVal → Bool
  | .vNone, .vNone => true
  | .vBool a, .vBool b => a == b
  | .vInt a, .vInt b => a == b
  | .vStr a, .vStr b => a == b
  | .vBool a, .vInt b => (if a then (1 : Int) else 0) == b
  | .vInt a, .vBool b => a == (if b then (1 : Int) else 0)
  | _, _ => false

/-- Python truthiness of a `PVal`. -/
def pyTruthy : PVal → Bool
  | .vNone => false
  | .vBool b => b
  | .vInt n => n != 0
  | .vStr s => !s.isEmpty

/-- Python `str()` rendering, used when the code formats a value into an
error message. -/
def pyStr : PVal → String
  | .vNone => "None"
  | .vBool true => "True"
  | .vBool false => "False"
  | .vInt n => toString n
  | .vStr s => s

/-- A Python dictionary with string keys, as an association list in
insertion order (Python dictionaries preserve insertion order and have
no duplicate keys; theorems assume key lists are duplicate-free where
that matters). -/
abbrev PyDict := List (String × PVal)

/-- `d[k]` lookup returning `none` when the key is absent. -/
def dictGet? (d : PyDict) (k : String) : Option PVal :=
  match d with
  | [] => none
  | (k1, v) :: rest => if k1 = k then some v else dictGet? rest k

/-- `d.get(k, dflt)`. -/
def dictGetD (d : PyDict) (k : String) (dflt : PVal) : PVal :=
  (dictGet? d k).getD dflt

/-- `d[k] = v`: replace the value of an existing key in place, otherwise
append the new key at the end (Python insertion-order semantics). -/
def dictSet (d : PyDict) (k : String) (v : PVal) : PyDict :=
  match d with
  | [] => [(k, v)]
  | (k1, v1) :: rest =>
      if k1 = k then (k1, v) :: rest else (k1, v1) :: dictSet rest k v

/-- `d.update(src)`: assign every key of `src` into `d`, in order. -/
def dictUpdate (d : PyDict) (src : PyDict) : PyDict :=
  src.foldl (fun acc kv => dictSet acc kv.1 kv.2) d

/-- The exceptions the embedded code can raise.  `nonRecoverable` carries
the message, as a list when the code builds a message list
(`validate_connect_network` stringifies the whole list). -/
inductive PyError where
  | nonRecoverable (msgs : List String)
  | operationRetry (msg : String)
  | keyError (key : String)
  | typeError (msg : String)
  | valueError (msg : String)
deriving DecidableEq, Repr

/-- Truthiness of an optional string (Python: `None` and `""` are falsy). -/
def truthyOS : Option String → Bool
  | none => false
  | some s => !s.isEmpty

/-- Truthiness of an optional integer (Python: `None` and `0` are falsy). -/
def truthyInt : Option Int → Bool
  | none => false
  | some n => n != 0

/-! ## Identity Resolver: `validate_vm_name` and `get_vm_name` -/

/-- The character class of the regex `[^A-Za-z0-9\-]` used by
`validate_vm_name`: a character is valid when it is NOT matched by that
pattern. -/
def validChar (c : Char) : Bool :=
  ('A' ≤ c && c ≤ 'Z') || ('a' ≤ c && c ≤ 'z') || ('0' ≤ c && c ≤ '9') || c = '-'

/-- `validate_vm_name`: raises `NonRecoverableError` when the regex search
for a character outside `A-Za-z0-9-` finds one; otherwise does nothing.
(The error message also claims all-numeric names are rejected, but the
code performs no such check.) -/
def validate_vm_name (vm_name : String) : Except PyError Unit :=
  if vm_name.data.any (fun c => !validChar c) then
    .error (.nonRecoverable
      ["Computer name must contain only A-Z, a-z, 0-9, and hyphens (\"-\"), and must not consist entirely of numbers. \"" ++ vm_name ++ "\" was not valid."])
  else .ok ()

/-- Helper for `str.rsplit(sep, 1)` followed by 2-tuple unpacking:
traverses the reversed character list accumulating the suffix. -/
def rsplitOnceAux (sep : Char) : List Char → List Char → Option (List Char × List Char)
  | [], _ => none
  | c :: rest, suf =>
      if c = sep then some (rest.reverse, suf) else rsplitOnceAux sep rest (c :: suf)

/-- `s.rsplit(sep, 1)` unpacked into two parts; `none` models the
`ValueError` Python raises when the separator does not occur. -/
def rsplitOnce (sep : Char) (s : String) : Option (String × String) :=
  match rsplitOnceAux sep s.data.reverse [] with
  | none => none
  | some (pre, suf) => some (⟨pre⟩, ⟨suf⟩)

/-- ASCII lowercasing of a character (Python `str.lower` on the ASCII
names involved; `String.toLower` is avoided as its implementation does
not reduce). -/
def pyCharLower (c : Char) : Char :=
  if 'A' ≤ c && c ≤ 'Z' then Char.ofNat (c.toNat + 32) else c

/-- `s.lower()`. -/
def pyLower (s : String) : String := ⟨s.data.map pyCharLower⟩

/-- Python slicing `s[:n]` for a possibly negative bound `n`. -/
def pySlice (s : String) (n : Int) : String :=
  if 0 ≤ n then ⟨s.data.take n.toNat⟩
  else ⟨s.data.take (s.data.length - n.natAbs)⟩

/-- The slice of the `server` node properties read by `get_vm_name`:
`server.get('name')` and `server.get('add_scale_suffix', True)`. -/
structure ServerProps where
  name : Option String
  add_scale_suffix : Option Bool
deriving DecidableEq, Repr

/-- `get_vm_name(server, os_family)`.  `rt_name` is the persisted
`runtime_properties['name']`; `instance_id` is `ctx.instance.id`. -/
def get_vm_name (rt_name : Option String) (server : ServerProps)
    (instance_id : String) (os_family : String) : Except PyError String :=
  match rt_name with
  | some nm => .ok nm
  | none =>
    let configured_name := server.name
    let add_scale_suffix := server.add_scale_suffix.getD true
    match configured_name, add_scale_suffix with
    | some cn, false => .ok cn
    | _, _ =>
      match rsplitOnce '_' instance_id with
      | none => .error (.valueError "not enough values to unpack")
      | some (instance_name, id_suffix) =>
        let name_prefix :=
          match configured_name with
          | some cn => if cn.isEmpty then instance_name else cn
          | none => instance_name
        let name_prefix :=
          if pyLower os_family == "windows" then
            pySlice name_prefix (14 - ((id_suffix.length : Int) + 1))
          else name_prefix
        let vm_name := name_prefix ++ "-" ++ id_suffix
        let vm_name :=
          if vm_name.data.contains '_' then
            ⟨vm_name.data.map (fun c => if c = '_' then '-' else c)⟩
          else vm_name
        match validate_vm_name vm_name with
        | .error e => .error e
        | .ok _ => .ok vm_name

/-! ## Network Topology Resolver: `validate_connect_network` -/

/-- The two expected types in the `network_validations` table
(`text_type` is `str`). -/
inductive VType where
  | tStr
  | tBool
deriving DecidableEq, Repr

/-- Python `isinstance(v, ty)` for the two types in the table (a Python
`bool` is not a `str`, and an `int` is not a `bool`). -/
def isinstance : PVal → VType → Bool
  | .vStr _, .tStr => true
  | .vBool _, .tBool => true
  | _, _ => false

/-- Rendering of the expected type in the error message. -/
def vtypeStr : VType → String
  | .tStr => "<class str>"
  | .tBool => "<class bool>"

/-- The `network_validations` table of `validate_connect_network`:
key, expected type, default value, in source order. -/
def network_validations : List (String × VType × PVal) :=
  [("name", .tStr, .vNone),
   ("from_relationship", .tBool, .vBool false),
   ("external", .tBool, .vBool false),
   ("management", .tBool, .vBool false),
   ("switch_distributed", .tBool, .vBool false),
   ("nsx_t_switch", .tBool, .vBool false),
   ("use_dhcp", .tBool, .vBool true),
   ("network", .tStr, .vNone),
   ("gateway", .tStr, .vNone),
   ("ip", .tStr, .vNone)]

/-- Lookup in a validations table (first occurrence). -/
def lookup3 (vals : List (String × VType × PVal)) (k : String) : Option (VType × PVal) :=
  match vals with
  | [] => none
  | (k1, ty, d) :: rest => if k1 = k then some (ty, d) else lookup3 rest k

/-- `network_validations.pop(key)`: the popped entry and the remaining
table. -/
def popVal (k : String) : List (String × VType × PVal) →
    Option ((VType × PVal) × List (String × VType × PVal))
  | [] => none
  | (k1, ty, d) :: rest =>
      if k1 = k then some ((ty, d), rest)
      else match popVal k rest with
        | none => none
        | some (td, rest1) => some (td, (k1, ty, d) :: rest1)

/-- `del network_validations[key]`. -/
def eraseKey (k : String) : List (String × VType × PVal) → List (String × VType × PVal)
  | [] => []
  | (k1, ty, d) :: rest => if k1 = k then rest else (k1, ty, d) :: eraseKey k rest

/-- The message for an unknown key. -/
def unsupportedKeyMsg (k : String) (v : PVal) : String :=
  let vs := pyStr v
  s!"Network has unsupported key: {k}. Value: {vs}"

/-- The message for a wrongly-typed value. -/
def unsupportedTypeMsg (k : String) (ty : VType) (v : PVal) : String :=
  let ts := vtypeStr ty
  let vs := pyStr v
  s!"Network Key {k} has unsupported type: {ts}. Value: {vs}"

/-- The message for the `switch_distributed` / `nsx_t_switch` conflict. -/
def conflictMsg : String :=
  "Cannot specify both switch_distributed & nsx_t_switch at the same time"

/-- The message for a missing network name. -/
def noNameMsg : String :=
  "All networks connected to a server must have a name specified."

/-- Loop state of the per-key review in `validate_connect_network`. -/
structure VCNState where
  vals : List (String × VType × PVal)
  flag : Bool
  errs : List String
  net : PyDict
deriving DecidableEq, Repr

/-- One iteration of the `for key, value in list(_network.items())` loop. -/
def vcnStep (st : VCNState) (kv : String × PVal) : VCNState :=
  match popVal kv.1 st.vals with
  | none =>
      { st with flag := true, errs := st.errs ++ [unsupportedKeyMsg kv.1 kv.2] }
  | some ((ty, d), vals1) =>
      if !pyTruthy kv.2 && ty != .tBool then
        { st with vals := vals1, net := dictSet st.net kv.1 d }
      else if !isinstance kv.2 ty then
        { st with vals := vals1, flag := true,
                  errs := st.errs ++ [unsupportedTypeMsg kv.1 ty kv.2] }
      else { st with vals := vals1 }

/-- The whole per-key loop, over a snapshot of the items of the input. -/
def vcnLoop : List (String × PVal) → VCNState → VCNState
  | [], st => st
  | kv :: rest, st => vcnLoop rest (vcnStep st kv)

/-- The final loop assigning defaults for every validation key never
popped. -/
def fillDefaults : PyDict → List (String × VType × PVal) → PyDict
  | net, [] => net
  | net, (k, _, d) :: rest => fillDefaults (dictSet net k d) rest

/-- Whether the input has both switch flags truthy. -/
def vcnConflict (net : PyDict) : Bool :=
  pyTruthy (dictGetD net "switch_distributed" .vNone)
  && pyTruthy (dictGetD net "nsx_t_switch" .vNone)

/-- Whether `_network.get('name')` is falsy. -/
def vcnNameFalsy (net : PyDict) : Bool :=
  !pyTruthy (dictGetD net "name" .vNone)

/-- The validations table after the possible `del` of the `name` entry. -/
def startVals (net : PyDict) : List (String × VType × PVal) :=
  if vcnNameFalsy net then eraseKey "name" network_validations
  else network_validations

/-- `validate_connect_network(_network)`.  The raised
`NonRecoverableError` carries the message list (the code stringifies the
list; we keep the list itself). -/
def validate_connect_network (net : PyDict) : Except PyError PyDict :=
  let st0 : VCNState :=
    { vals := startVals net,
      flag := vcnConflict net || vcnNameFalsy net,
      errs := (if vcnConflict net then [conflictMsg] else [])
              ++ (if vcnNameFalsy net then [noNameMsg] else []),
      net := net }
  let st := vcnLoop net st0
  if st.flag then
    .error (.nonRecoverable ("Network failed validation: " :: st.errs))
  else .ok (fillDefaults st.net st.vals)

/-- Specification-side description of the violation (if any) that the
review of one key/value pair records, computed independently of the loop
state: unknown key, or wrongly-typed value (falsy values of non-boolean
keys are silently defaulted, not violations). -/
def itemViolation (vals : List (String × VType × PVal)) (k : String) (v : PVal) :
    Option String :=
  match lookup3 vals k with
  | none => some (unsupportedKeyMsg k v)
  | some (ty, _) =>
      if !pyTruthy v && ty != .tBool then none
      else if !isinstance v ty then some (unsupportedTypeMsg k ty v)
      else none

/-- Specification-side list of ALL violations of one network entry, in
source order: the switch conflict, the missing name, then one entry per
offending key/value pair. -/
def violations (net : PyDict) : List String :=
  (if vcnConflict net then [conflictMsg] else [])
  ++ (if vcnNameFalsy net then [noNameMsg] else [])
  ++ net.filterMap (fun kv => itemViolation (startVals net) kv.1 kv.2)

lemma filterMapCongrMem {α β : Type} (l : List α) {f g : α → Option β}
    (h : ∀ x ∈ l, f x = g x) : l.filterMap f = l.filterMap g := by
  induction l with
  | nil => rfl
  | cons a t ih =>
      simp only [List.filterMap_cons, h a (by simp)]
      rw [ih (fun x hx => h x (by simp [hx]))]

lemma popVal_eq_none_iff (k : String) (vals : List (String × VType × PVal)) :
    popVal k vals = none ↔ lookup3 vals k = none := by
  induction vals with
  | nil => simp [popVal, lookup3]
  | cons e rest ih =>
      obtain ⟨k1, ty, d⟩ := e
      by_cases hk : k1 = k
      · simp [popVal, lookup3, hk]
      · simp only [popVal, lookup3, if_neg hk]
        cases hp : popVal k rest with
        | none => simp [hp] at ih; simp [ih]
        | some td => simp [hp] at ih; simp [ih]

lemma popVal_some_lookup {k : String} {vals vals1 : List (String × VType × PVal)}
    {ty : VType} {d : PVal}
    (h : popVal k vals = some ((ty, d), vals1)) : lookup3 vals k = some (ty, d) := by
  induction vals generalizing vals1 with
  | nil => simp [popVal] at h
  | cons e rest ih =>
      obtain ⟨k1, ty1, d1⟩ := e
      by_cases hk : k1 = k
      · simp only [popVal, if_pos hk, Option.some.injEq, Prod.mk.injEq] at h
        simp only [lookup3, if_pos hk]
        obtain ⟨⟨hty, hd⟩, _⟩ := h
        simp [hty, hd]
      · simp only [popVal, if_neg hk] at h
        simp only [lookup3, if_neg hk]
        cases hp : popVal k rest with
        | none => rw [hp] at h; simp at h
        | some p =>
            rw [hp] at h
            obtain ⟨td, rest1⟩ := p
            simp only [Option.some.injEq, Prod.mk.injEq] at h
            obtain ⟨h1, _⟩ := h
            exact ih (by rw [hp, h1])

lemma popVal_some_lookup_ne {k k1 : String} {vals vals1 : List (String × VType × PVal)}
    {td : VType × PVal}
    (h : popVal k vals = some (td, vals1)) (hne : k1 ≠ k) :
    lookup3 vals1 k1 = lookup3 vals k1 := by
  induction vals generalizing vals1 with
  | nil => simp [popVal] at h
  | cons e rest ih =>
      obtain ⟨k2, ty2, d2⟩ := e
      by_cases hk : k2 = k
      · simp only [popVal, if_pos hk, Option.some.injEq, Prod.mk.injEq] at h
        obtain ⟨_, h2⟩ := h
        subst h2
        have hne2 : k2 ≠ k1 := by
          rw [hk]; exact fun hc => hne hc.symm
        simp [lookup3, hne2]
      · simp only [popVal, if_neg hk] at h
        cases hp : popVal k rest with
        | none => rw [hp] at h; simp at h
        | some p =>
            rw [hp] at h
            obtain ⟨td1, rest1⟩ := p
            simp only [Option.some.injEq, Prod.mk.injEq] at h
            obtain ⟨h1, h2⟩ := h
            subst h2
            simp only [lookup3]
            by_cases hq : k2 = k1
            · simp [hq]
            · simp only [if_neg hq]
              exact ih (by rw [hp, h1])

lemma itemViolation_popVal_ne {k k1 : String}
    {vals vals1 : List (String × VType × PVal)} {td : VType × PVal}
    (h : popVal k vals = some (td, vals1)) (hne : k1 ≠ k) (v : PVal) :
    itemViolation vals1 k1 v = itemViolation vals k1 v := by
  unfold itemViolation
  rw [popVal_some_lookup_ne h hne]

/-- The per-key review loop records exactly the independently-computed
violation of every item (batched, never stopping at the first), and
raises the error flag exactly when at least one violation exists. -/
lemma vcnLoop_spec (items : List (String × PVal)) : ∀ (st : VCNState),
    (items.map Prod.fst).Nodup →
    (vcnLoop items st).errs
      = st.errs ++ items.filterMap (fun kv => itemViolation st.vals kv.1 kv.2)
    ∧ (vcnLoop items st).flag
      = (st.flag
         || !(items.filterMap (fun kv => itemViolation st.vals kv.1 kv.2)).isEmpty) := by
  induction items with
  | nil => intro st _; simp [vcnLoop]
  | cons kv rest ih =>
      intro st hnd
      obtain ⟨k, v⟩ := kv
      simp only [List.map_cons, List.nodup_cons] at hnd
      obtain ⟨hk, hrest⟩ := hnd
      have hkne : ∀ kv1 ∈ rest, kv1.1 ≠ k := by
        intro kv1 hmem hceq
        exact hk (hceq ▸ List.mem_map_of_mem Prod.fst hmem)
      simp only [vcnLoop, List.filterMap_cons]
      cases hpop : popVal k st.vals with
      | none =>
          have hlk : lookup3 st.vals k = none := (popVal_eq_none_iff k st.vals).mp hpop
          have hiv : itemViolation st.vals k v = some (unsupportedKeyMsg k v) := by
            unfold itemViolation; rw [hlk]
          have hstep : vcnStep st (k, v)
              = { st with flag := true, errs := st.errs ++ [unsupportedKeyMsg k v] } := by
            unfold vcnStep; rw [hpop]
          rw [hstep, hiv]
          obtain ⟨he, hf⟩ := ih _ hrest
          refine ⟨?_, ?_⟩
          · rw [he]; simp
          · rw [hf]; simp
      | some p =>
          obtain ⟨⟨ty, d⟩, vals1⟩ := p
          have hlk : lookup3 st.vals k = some (ty, d) := popVal_some_lookup hpop
          have hcongr : rest.filterMap (fun kv1 => itemViolation vals1 kv1.1 kv1.2)
              = rest.filterMap (fun kv1 => itemViolation st.vals kv1.1 kv1.2) :=
            filterMapCongrMem rest
              (fun kv1 hmem => itemViolation_popVal_ne hpop (hkne kv1 hmem) kv1.2)
          by_cases hfb : !pyTruthy v && ty != .tBool
          · have hiv : itemViolation st.vals k v = none := by
              unfold itemViolation; rw [hlk]; simp [hfb]
            have hstep : vcnStep st (k, v)
                = { st with vals := vals1, net := dictSet st.net k d } := by
              unfold vcnStep; rw [hpop]; simp [hfb]
            rw [hstep, hiv]
            obtain ⟨he, hf⟩ := ih _ hrest
            rw [he, hf, hcongr]
            exact ⟨rfl, rfl⟩
          · by_cases hit : isinstance v ty
            · have hiv : itemViolation st.vals k v = none := by
                unfold itemViolation; rw [hlk]
                simp [hfb, hit]
              have hstep : vcnStep st (k, v) = { st with vals := vals1 } := by
                unfold vcnStep; rw [hpop]; simp [hfb, hit]
              rw [hstep, hiv]
              obtain ⟨he, hf⟩ := ih _ hrest
              rw [he, hf, hcongr]
              exact ⟨rfl, rfl⟩
            · have hiv : itemViolation st.vals k v
                  = some (unsupportedTypeMsg k ty v) := by
                unfold itemViolation; rw [hlk]
                simp [hfb, hit]
              have hstep : vcnStep st (k, v)
                  = { st with vals := vals1, flag := true,
                              errs := st.errs ++ [unsupportedTypeMsg k ty v] } := by
                unfold vcnStep; rw [hpop]; simp [hfb, hit]
              rw [hstep, hiv]
              obtain ⟨he, hf⟩ := ih _ hrest
              rw [he, hf, hcongr]
              refine ⟨by simp, by simp⟩

/-- Unfolded form of `validate_connect_network` in terms of the loop. -/
lemma validate_connect_network_eq (net : PyDict) :
    validate_connect_network net
      = (let st := vcnLoop net
          { vals := startVals net,
            flag := vcnConflict net || vcnNameFalsy net,
            errs := (if vcnConflict net then [conflictMsg] else [])
                    ++ (if vcnNameFalsy net then [noNameMsg] else []),
            net := net };
         if st.flag then
           .error (.nonRecoverable ("Network failed validation: " :: st.errs))
         else .ok (fillDefaults st.net st.vals)) := rfl

/-- C6.  Batched validation: for every network entry (with duplicate-free
keys, as Python dictionaries guarantee), `validate_connect_network`
either succeeds (exactly when the entry has no violation) or raises one
non-recoverable error whose message lists EVERY violation of the entry —
the switch conflict, the missing name, every unknown key and every
wrongly-typed value — never only the first one found. -/
theorem validate_connect_network_batches_all_violations (net : PyDict)
    (hnd : (net.map Prod.fst).Nodup) :
    (violations net ≠ [] →
      validate_connect_network net
        = .error (.nonRecoverable ("Network failed validation: " :: violations net)))
    ∧ (violations net = [] → ∃ out, validate_connect_network net = .ok out) := by
  obtain ⟨he, hf⟩ := vcnLoop_spec net
    { vals := startVals net,
      flag := vcnConflict net || vcnNameFalsy net,
      errs := (if vcnConflict net then [conflictMsg] else [])
              ++ (if vcnNameFalsy net then [noNameMsg] else []),
      net := net } hnd
  rw [validate_connect_network_eq]
  simp only at he hf ⊢
  constructor
  · intro hne
    have hflag : (vcnLoop net
        { vals := startVals net,
          flag := vcnConflict net || vcnNameFalsy net,
          errs := (if vcnConflict net then [conflictMsg] else [])
                  ++ (if vcnNameFalsy net then [noNameMsg] else []),
          net := net }).flag = true := by
      rw [hf]
      unfold violations at hne
      cases hc : vcnConflict net <;> cases hn : vcnNameFalsy net <;>
        (simp [hc, hn] at hne ⊢; try simpa using hne)
    rw [hflag, he]
    unfold violations
    cases hc : vcnConflict net <;> cases hn : vcnNameFalsy net <;> simp [hc, hn]
  · intro hz
    unfold violations at hz
    have hflag : (vcnLoop net
        { vals := startVals net,
          flag := vcnConflict net || vcnNameFalsy net,
          errs := (if vcnConflict net then [conflictMsg] else [])
                  ++ (if vcnNameFalsy net then [noNameMsg] else []),
          net := net }).flag = false := by
      rw [hf]
      cases hc : vcnConflict net <;> cases hn : vcnNameFalsy net <;>
        simp [hc, hn] at hz ⊢
      exact hz
    rw [hflag]
    exact ⟨_, rfl⟩

/-- Witness for C6: a single malformed entry — switch conflict, missing
name, one unknown key, one wrongly-typed value — is reported with all
four violations in one error. -/
theorem validate_connect_network_batches_all_violations_witness :
    validate_connect_network
        [("switch_distributed", .vBool true), ("nsx_t_switch", .vBool true),
         ("bogus", .vStr "x"), ("ip", .vBool true)]
      = .error (.nonRecoverable
          ("Network failed validation: " ::
            violations
              [("switch_distributed", .vBool true), ("nsx_t_switch", .vBool true),
               ("bogus", .vStr "x"), ("ip", .vBool true)]))
    ∧ violations
        [("switch_distributed", .vBool true), ("nsx_t_switch", .vBool true),
         ("bogus", .vStr "x"), ("ip", .vBool true)]
      = [conflictMsg, noNameMsg,
         unsupportedKeyMsg "bogus" (.vStr "x"),
         unsupportedTypeMsg "ip" .tStr (.vBool true)] :=
  ⟨(validate_connect_network_batches_all_violations
      [("switch_distributed", .vBool true), ("nsx_t_switch", .vBool true),
       ("bogus", .vStr "x"), ("ip", .vBool true)] (by decide)).1 (by decide),
   by decide⟩

/-! ## Network Topology Resolver: `get_connected_networks` and
`handle_networks` -/

/-- One relationship of type `server_connected_to_nic`: the target
instance id, its `connected_network` runtime property (absent or a
dictionary) and its `name` runtime property (used as fallback network
name). -/
structure RelNic where
  target_id : String
  connected_network : Option PyDict
  target_name : Option String
deriving DecidableEq, Repr

/-- The fallback `runtime_properties.get('name')` of a relationship
target as a Python value. -/
def relFallbackName (r : RelNic) : PVal :=
  match r.target_name with
  | none => .vNone
  | some s => .vStr s

/-- The inner `for prop_nic in nics_from_props` loop of
`get_connected_networks`: merge the relationship network into every
property network of the same name flagged `from_relationship`
(`prop_nic['name']` raises `KeyError` when absent). -/
def mergeLoop (cnName : PVal) (cn : PyDict) : List PyDict → Except PyError (List PyDict)
  | [] => .ok []
  | p :: rest =>
      match dictGet? p "name" with
      | none => .error (.keyError "name")
      | some pn =>
          let p1 := if pyEq cnName pn && pyTruthy (dictGetD p "from_relationship" .vNone)
                    then dictUpdate p cn else p
          match mergeLoop cnName cn rest with
          | .error e => .error e
          | .ok rest1 => .ok (p1 :: rest1)

/-- `get_connected_networks(nics_from_props)` over the relationship list.
`ids` models the `VSPHERE_SERVER_CONNECTED_NICS` runtime property.
NOTE the relationship network is appended to the list unconditionally,
even after it was merged into a matching `from_relationship` entry (the
append sits outside the merge loop in the source). -/
def get_connected_networks :
    List PyDict → List RelNic → List String → Except PyError (List PyDict × List String)
  | props, [], ids => .ok (props, ids)
  | props, r :: rest, ids =>
      match r.connected_network with
      | none =>
          .error (.nonRecoverable
            ["No \"connect_network\" specification for nic " ++ r.target_id ++ "."])
      | some cn =>
          if cn.isEmpty then
            .error (.nonRecoverable
              ["No \"connect_network\" specification for nic " ++ r.target_id ++ "."])
          else
            let nameVal := dictGetD cn "name" (relFallbackName r)
            if !pyTruthy nameVal then
              .error (.nonRecoverable
                ["No network name specified for nic " ++ r.target_id ++ "."])
            else
              let cn1 := dictSet cn "name" nameVal
              match mergeLoop nameVal cn1 props with
              | .error e => .error e
              | .ok props1 =>
                  get_connected_networks (props1 ++ [cn1]) rest (ids ++ [r.target_id])

/-- The `networking` node property slice used by `handle_networks`
(`networking.get('connect_networks', [])`). -/
structure NetworkingParams where
  connect_networks : List PyDict
deriving DecidableEq, Repr

/-- Number of entries of a resolved list whose key is truthy under
`entry.get(key, False)` — the counting done by the exclusivity checks. -/
def countTruthy (l : List PyDict) (k : String) : Nat :=
  (l.filter (fun n => pyTruthy (dictGetD n k (.vBool false)))).length

/-- The reorder loop of `handle_networks`: validate each entry, insert
entries with truthy `external` at position 0, append the others
(`network['external']` raises `KeyError` when absent — it never is after
successful validation). -/
def reorderLoop : List PyDict → List PyDict → Except PyError (List PyDict)
  | [], acc => .ok acc
  | n :: rest, acc =>
      match validate_connect_network n with
      | .error e => .error e
      | .ok n1 =>
          match dictGet? n1 "external" with
          | none => .error (.keyError "external")
          | some v =>
              reorderLoop rest (if pyTruthy v then n1 :: acc else acc ++ [n1])

/-- `handle_networks(networking_parameters)`. -/
def handle_networks (networking : NetworkingParams) (rels : List RelNic)
    (nic_ids : List String) : Except PyError (List PyDict) :=
  match get_connected_networks networking.connect_networks rels nic_ids with
  | .error e => .error e
  | .ok (cns, _ids) =>
      if cns.isEmpty then .ok cns
      else if countTruthy cns "external" > 1 then
        .error (.nonRecoverable ["No more than one external network can be specified."])
      else if countTruthy cns "management" > 1 then
        .error (.nonRecoverable ["No more than one management network can be specified."])
      else reorderLoop cns []

/-- C1 (code evaluation at the failing input).  One declared network
`net1` flagged `from_relationship` and one relationship network of the
same name: the code merges the relationship fields into the declared
entry AND still appends the relationship entry as a second list element
— the claimed merge-without-append behaviour does not hold (the
unconditional append at the end of the relationship loop contradicts the
"Otherwise go head and add it to the list" comment above it). -/
theorem get_connected_networks_appends_even_after_merge :
    get_connected_networks
        [[("name", .vStr "net1"), ("from_relationship", .vBool true)]]
        [{ target_id := "nic_1",
           connected_network := some [("name", .vStr "net1"), ("ip", .vStr "10.0.0.9")],
           target_name := none }]
        []
      = .ok ([[("name", .vStr "net1"), ("from_relationship", .vBool true),
               ("ip", .vStr "10.0.0.9")],
              [("name", .vStr "net1"), ("ip", .vStr "10.0.0.9")]],
             ["nic_1"])
    ∧ ∀ out ids,
        get_connected_networks
            [[("name", .vStr "net1"), ("from_relationship", .vBool true)]]
            [{ target_id := "nic_1",
               connected_network := some [("name", .vStr "net1"), ("ip", .vStr "10.0.0.9")],
               target_name := none }]
            []
          = .ok (out, ids) → out.length = 2 := by
  have h1 : get_connected_networks
      [[("name", .vStr "net1"), ("from_relationship", .vBool true)]]
      [{ target_id := "nic_1",
         connected_network := some [("name", .vStr "net1"), ("ip", .vStr "10.0.0.9")],
         target_name := none }]
      []
    = .ok ([[("name", .vStr "net1"), ("from_relationship", .vBool true),
             ("ip", .vStr "10.0.0.9")],
            [("name", .vStr "net1"), ("ip", .vStr "10.0.0.9")]],
           ["nic_1"]) := by decide
  refine ⟨h1, ?_⟩
  intro out ids h
  rw [h1] at h
  simp only [Except.ok.injEq, Prod.mk.injEq] at h
  obtain ⟨ho, _⟩ := h
  rw [← ho]
  rfl

/-! ## Claims about the Identity Resolver -/

/-- C4 (code evaluation at the failing input).  `validate_vm_name` only
searches for a character outside `A-Za-z0-9-`; despite its own error
message ("... must not consist entirely of numbers"), an all-numeric
name passes, and a derived all-digits-with-hyphens name is accepted and
returned by `get_vm_name` instead of raising the claimed
non-recoverable naming error. -/
theorem validate_vm_name_accepts_all_numeric :
    validate_vm_name "1234" = .ok ()
    ∧ get_vm_name none { name := none, add_scale_suffix := none } "12_34" "linux"
        = .ok "12-34" :=
  ⟨by decide, by decide⟩

/-- C10.  With no persisted name, a configured name and
`add_scale_suffix = false`, `get_vm_name` returns the configured name
exactly as given: no suffix, no underscore rewriting, and no character
validation (the early return precedes all of them). -/
theorem get_vm_name_configured_no_suffix (server : ServerProps) (cn : String)
    (instance_id os_family : String)
    (hname : server.name = some cn)
    (hsuffix : server.add_scale_suffix = some false) :
    get_vm_name none server instance_id os_family = .ok cn := by
  unfold get_vm_name
  rw [hname, hsuffix]
  rfl

/-- Witness for C10: a configured name full of characters the validator
would reject (underscore, dot, exclamation mark) is returned unchanged,
even though `validate_vm_name` rejects it. -/
theorem get_vm_name_configured_no_suffix_witness :
    get_vm_name none { name := some "bad_name.v2!", add_scale_suffix := some false }
        "node_1" "windows" = .ok "bad_name.v2!"
    ∧ validate_vm_name "bad_name.v2!" ≠ .ok () :=
  ⟨get_vm_name_configured_no_suffix
      { name := some "bad_name.v2!", add_scale_suffix := some false }
      "bad_name.v2!" "node_1" "windows" rfl rfl,
   by decide⟩

/-! ## Lifecycle Orchestrator: `stop` and `delete` -/

/-- A platform VM object handle (opaque). -/
abbrev VmObj := String

/-- The per-instance context slice the lifecycle operations read:
instance id, truthiness of the `VSPHERE_RESOURCE_EXTERNAL` runtime
property, the persisted `VSPHERE_SERVER_ID` (present or absent), and the
persisted `name`. -/
structure LifecycleCtx where
  instance_id : String
  resource_external : Bool
  server_id : Option String
  rt_name : Option String
deriving DecidableEq, Repr

/-- `get_server_by_context(server_client, server, os_family)`: look up by
persisted id when `VSPHERE_SERVER_ID` is a runtime property, else by
derived name when `os_family` is truthy, else raise. -/
def get_server_by_context (c : LifecycleCtx)
    (lookup_by_id lookup_by_name : String → Option VmObj)
    (server : ServerProps) (os_family : String) : Except PyError (Option VmObj) :=
  match c.server_id with
  | some sid => .ok (lookup_by_id sid)
  | none =>
      if !os_family.isEmpty then
        match get_vm_name c.rt_name server c.instance_id os_family with
        | .error e => .error e
        | .ok nm => .ok (lookup_by_name nm)
      else .error (.nonRecoverable ["os_family must be provided if the VM might not exist"])

/-- The platform actions an operation performs (recorded so that a no-op
return is distinguishable from an actual platform call). -/
inductive SrvAction where
  | stopServer
  | deleteServer
deriving DecidableEq, Repr

/-- `stop(server, os_family, force_stop)`.  Success carries the list of
platform actions performed. -/
def stop (c : LifecycleCtx) (lookup_by_id lookup_by_name : String → Option VmObj)
    (server : ServerProps) (os_family : String) (force_stop : Bool) :
    Except PyError (List SrvAction) :=
  if c.resource_external && !force_stop then .ok []
  else
    match get_server_by_context c lookup_by_id lookup_by_name server os_family with
    | .error e => .error e
    | .ok none =>
        if truthyOS c.server_id then
          .error (.nonRecoverable
            ["Cannot stop server - server doesn't exist for node: " ++ c.instance_id])
        else .ok []
    | .ok (some _) =>
        match get_vm_name c.rt_name server c.instance_id os_family with
        | .error e => .error e
        | .ok _ => .ok [.stopServer]

/-- `delete(server, os_family, force_delete)`. -/
def delete (c : LifecycleCtx) (lookup_by_id lookup_by_name : String → Option VmObj)
    (server : ServerProps) (os_family : String) (force_delete : Bool) :
    Except PyError (List SrvAction) :=
  if c.resource_external && !force_delete then .ok []
  else
    match get_server_by_context c lookup_by_id lookup_by_name server os_family with
    | .error e => .error e
    | .ok none => .ok []
    | .ok (some _) =>
        match get_vm_name c.rt_name server c.instance_id os_family with
        | .error e => .error e
        | .ok _ => .ok [.deleteServer]

/-- C9.  Missing-resource asymmetry: when a persisted server id exists
(a truthy `VSPHERE_SERVER_ID`) but the platform lookup no longer finds
the object, `stop` raises a non-recoverable error while `delete` returns
success without performing any platform action (idempotent no-op). -/
theorem stop_delete_missing_resource_asymmetry (c : LifecycleCtx)
    (lookup_by_id lookup_by_name : String → Option VmObj)
    (server : ServerProps) (os_family : String) (sid : String)
    (hsid : c.server_id = some sid) (hs : sid ≠ "")
    (hgone : lookup_by_id sid = none)
    (hext : c.resource_external = false) :
    stop c lookup_by_id lookup_by_name server os_family false
      = .error (.nonRecoverable
          ["Cannot stop server - server doesn't exist for node: " ++ c.instance_id])
    ∧ delete c lookup_by_id lookup_by_name server os_family false = .ok [] := by
  have hgs : get_server_by_context c lookup_by_id lookup_by_name server os_family
      = .ok none := by
    unfold get_server_by_context
    rw [hsid]
    simp [hgone]
  have hse : sid.isEmpty = false := by
    cases hie : sid.isEmpty
    · rfl
    · exact absurd ((String.isEmpty_iff sid).mp hie) hs
  have htr : truthyOS c.server_id = true := by
    rw [hsid]
    unfold truthyOS
    simp [hse]
  constructor
  · unfold stop
    rw [hext, hgs]
    simp [htr]
  · unfold delete
    rw [hext, hgs]
    simp

/-- Witness for C9 at a concrete context with a persisted but vanished
server id. -/
theorem stop_delete_missing_resource_asymmetry_witness :
    stop { instance_id := "srv_1", resource_external := false,
           server_id := some "vm-42", rt_name := some "srv-1" }
        (fun _ => none) (fun _ => none)
        { name := none, add_scale_suffix := none } "linux" false
      = .error (.nonRecoverable
          ["Cannot stop server - server doesn't exist for node: srv_1"])
    ∧ delete { instance_id := "srv_1", resource_external := false,
               server_id := some "vm-42", rt_name := some "srv-1" }
        (fun _ => none) (fun _ => none)
        { name := none, add_scale_suffix := none } "linux" false
      = .ok [] := by
  have h := stop_delete_missing_resource_asymmetry
    { instance_id := "srv_1", resource_external := false,
      server_id := some "vm-42", rt_name := some "srv-1" }
    (fun _ => none) (fun _ => none)
    { name := none, add_scale_suffix := none } "linux" "vm-42"
    rfl (by decide) rfl rfl
  exact h

/-! ## Lifecycle Orchestrator: `resize_server` and `resize` -/

/-- The `summary` part of the persisted `expected_configuration`
snapshot: the two fields the resize path writes plus the rest of the
serialized summary, kept opaque. -/
structure SummaryCfg where
  numCpu : Int
  memorySizeMB : Int
  rest : String
deriving DecidableEq, Repr

/-- The persisted `expected_configuration` snapshot:
a serialized `network` tree (opaque) and the `summary`. -/
structure ConfigSnapshot where
  network : String
  summary : SummaryCfg
deriving DecidableEq, Repr

/-- The runtime-property slice the resize operations read and write. -/
structure ResizeRt where
  cpus : Option Int
  memory : Option Int
  expected_configuration : Option ConfigSnapshot
deriving DecidableEq, Repr

/-- The `property == 'cpus'` arm of the persistence loop in
`resize_server`: store the new value and mirror it into
`expected_configuration.summary.numCpu` (a missing
`expected_configuration` raises `KeyError`). -/
def applyResizeCpus (rrt : ResizeRt) (cpus : Option Int) : Except PyError ResizeRt :=
  match cpus with
  | none => .ok rrt
  | some n =>
      if n == 0 then .ok rrt
      else
        match rrt.expected_configuration with
        | none => .error (.keyError "expected_configuration")
        | some cfg =>
            .ok { rrt with
                   cpus := some n,
                   expected_configuration :=
                     some { cfg with summary := { cfg.summary with numCpu := n } } }

/-- The `property == 'memory'` arm of the persistence loop in
`resize_server`. -/
def applyResizeMemory (rrt : ResizeRt) (memory : Option Int) : Except PyError ResizeRt :=
  match memory with
  | none => .ok rrt
  | some n =>
      if n == 0 then .ok rrt
      else
        match rrt.expected_configuration with
        | none => .error (.keyError "expected_configuration")
        | some cfg =>
            .ok { rrt with
                   memory := some n,
                   expected_configuration :=
                     some { cfg with summary := { cfg.summary with memorySizeMB := n } } }

/-- `resize_server(server, os_family, cpus, memory)`: no-op when neither
size is truthy, precondition error when the resource is missing,
otherwise resize on the platform and persist the new values into the
runtime properties and the expected snapshot (cpus first, then memory,
as in the `for property in 'cpus', 'memory'` loop). -/
def resize_server (c : LifecycleCtx)
    (lookup_by_id lookup_by_name : String → Option VmObj)
    (server : ServerProps) (os_family : String)
    (rrt : ResizeRt) (cpus memory : Option Int) : Except PyError ResizeRt :=
  if !(truthyInt cpus || truthyInt memory) then .ok rrt
  else
    match get_server_by_context c lookup_by_id lookup_by_name server os_family with
    | .error e => .error e
    | .ok none =>
        .error (.nonRecoverable
          ["Cannot resize server - server doesn't exist for node: " ++ c.instance_id])
    | .ok (some _) =>
        match applyResizeCpus rrt cpus with
        | .error e => .error e
        | .ok rrt1 => applyResizeMemory rrt1 memory

/-- The deprecated `resize(server, os_family)` operation: sizes come from
the persisted runtime properties; raises "Server resize parameters
should be specified." when both are falsy. -/
def resize (c : LifecycleCtx)
    (lookup_by_id lookup_by_name : String → Option VmObj)
    (server : ServerProps) (os_family : String)
    (rrt : ResizeRt) : Except PyError ResizeRt :=
  match get_server_by_context c lookup_by_id lookup_by_name server os_family with
  | .error e => .error e
  | .ok none =>
      .error (.nonRecoverable
        ["Cannot resize server - server doesn't exist for node: " ++ c.instance_id])
  | .ok (some _) =>
      match get_vm_name c.rt_name server c.instance_id os_family with
      | .error e => .error e
      | .ok _ =>
          if truthyInt rrt.cpus || truthyInt rrt.memory then .ok rrt
          else .error (.nonRecoverable ["Server resize parameters should be specified."])

/-- C2.  Resize contract on an existing resource (persisted id found by
the platform): invoking the resize operation with `cpus=None` and
`memory=None` (the deprecated `resize`, whose parameters are the
persisted `cpus`/`memory` runtime properties) raises a non-recoverable
"nothing to resize" error instead of returning; and `resize_server` with
`cpus=4` leaves the persisted expected-configuration snapshot with
`summary.numCpu = 4` (the memory field analogously, here untouched). -/
theorem resize_contract (c : LifecycleCtx)
    (lookup_by_id lookup_by_name : String → Option VmObj)
    (server : ServerProps) (os_family : String) (rrt : ResizeRt)
    (sid : String) (obj : VmObj) (nm : String)
    (hsid : c.server_id = some sid) (hfound : lookup_by_id sid = some obj)
    (hname : c.rt_name = some nm) :
    (rrt.cpus = none → rrt.memory = none →
      resize c lookup_by_id lookup_by_name server os_family rrt
        = .error (.nonRecoverable ["Server resize parameters should be specified."]))
    ∧ (∀ cfg, rrt.expected_configuration = some cfg →
        resize_server c lookup_by_id lookup_by_name server os_family rrt (some 4) none
          = .ok { rrt with
                  cpus := some 4,
                  expected_configuration :=
                    some { cfg with summary := { cfg.summary with numCpu := 4 } } }) := by
  have hgs : get_server_by_context c lookup_by_id lookup_by_name server os_family
      = .ok (some obj) := by
    unfold get_server_by_context
    rw [hsid]
    simp [hfound]
  constructor
  · intro hc hm
    unfold resize
    rw [hgs]
    unfold get_vm_name
    rw [hname]
    simp [truthyInt, hc, hm]
  · intro cfg hcfg
    unfold resize_server
    rw [hgs]
    simp only [truthyInt]
    unfold applyResizeCpus applyResizeMemory
    rw [hcfg]
    simp

/-- Witness for C2 at a concrete context and snapshot. -/
theorem resize_contract_witness :
    resize { instance_id := "srv_1", resource_external := false,
             server_id := some "vm-42", rt_name := some "srv-1" }
        (fun _ => some "vm-42") (fun _ => none)
        { name := none, add_scale_suffix := none } "linux"
        { cpus := none, memory := none,
          expected_configuration :=
            some { network := "net-json",
                   summary := { numCpu := 2, memorySizeMB := 1024, rest := "cfg" } } }
      = .error (.nonRecoverable ["Server resize parameters should be specified."])
    ∧ resize_server { instance_id := "srv_1", resource_external := false,
                      server_id := some "vm-42", rt_name := some "srv-1" }
        (fun _ => some "vm-42") (fun _ => none)
        { name := none, add_scale_suffix := none } "linux"
        { cpus := none, memory := none,
          expected_configuration :=
            some { network := "net-json",
                   summary := { numCpu := 2, memorySizeMB := 1024, rest := "cfg" } } }
        (some 4) none
      = .ok { cpus := some 4, memory := none,
              expected_configuration :=
                some { network := "net-json",
                       summary := { numCpu := 4, memorySizeMB := 1024, rest := "cfg" } } } := by
  have h := resize_contract
    { instance_id := "srv_1", resource_external := false,
      server_id := some "vm-42", rt_name := some "srv-1" }
    (fun _ => some "vm-42") (fun _ => none)
    { name := none, add_scale_suffix := none } "linux"
    { cpus := none, memory := none,
      expected_configuration :=
        some { network := "net-json",
               summary := { numCpu := 2, memorySizeMB := 1024, rest := "cfg" } } }
    "vm-42" "vm-42" "srv-1" rfl rfl rfl
  refine ⟨h.1 rfl rfl, ?_⟩
  have h2 := h.2 _ rfl
  simpa using h2

/-! ## Drift Detector (`check_drift`) and the Reconciler removal plan
(`update`) -/

/-- A hardware device of the VM: whether it is a
`vim.vm.device.VirtualEthernetCard`, and its MAC address. -/
structure EthDevice where
  isEthernet : Bool
  macAddress : String
deriving DecidableEq, Repr

/-- One persisted `networks` runtime-property entry (`{name, mac, ip}`;
the code reads it with `.get`, so each field may be absent). -/
structure NicRT where
  name : Option String
  mac : Option String
  ip : Option String
deriving DecidableEq, Repr

/-- An element of the compared network-name lists: either a declared or
persisted name (`network.get('name')`), or the fresh `uuid.uuid4()`
sentinel injected for a device whose MAC matches no persisted entry.
Sentinels are numbered per unmatched device; by construction a sentinel
equals no declared name, which models the freshness of `uuid4`. -/
inductive NetName where
  | declared (v : PVal)
  | sentinel (k : Nat)
deriving DecidableEq, Repr

/-- The first persisted entry whose `mac` equals the device MAC
(`device.macAddress == network.get('mac')`, a string never equal to an
absent/None mac). -/
def matchNic (mac : String) : List NicRT → Option NicRT
  | [] => none
  | n :: rest => if n.mac == some mac then some n else matchNic mac rest

/-- The `existing_networks` list of `check_drift`: the persisted name of
every matched Ethernet device, a fresh sentinel for every unmatched
one. -/
def existingNetworks : List EthDevice → List NicRT → Nat → List NetName
  | [], _, _ => []
  | d :: rest, nics, fresh =>
      if d.isEthernet then
        match matchNic d.macAddress nics with
        | some n => .declared (match n.name with
            | none => .vNone
            | some s => .vStr s) :: existingNetworks rest nics fresh
        | none => .sentinel fresh :: existingNetworks rest nics (fresh + 1)
      else existingNetworks rest nics fresh

/-- Modelled from the spec: `utils_check_drift`
(`vsphere_plugin_common.utils`, not under `src/`) structurally diffs two
values and reports whether they differ; on the two network-name lists
this is inequality of the lists. -/
def utils_check_drift_names (old new : List NetName) : Bool := old ≠ new

/-- Modelled from the spec: `utils_check_drift` applied to the whole
expected vs current configuration snapshots — the generic structural
comparison (an absent expected snapshot differs from any current one). -/
def utils_check_drift_config (expected : Option ConfigSnapshot)
    (current : ConfigSnapshot) : Bool :=
  match expected with
  | none => true
  | some e => e ≠ current

/-- The `(memory and memory != expected..['memorySizeMB']) or
(cpus and cpus != expected..['numCpu'])` check, with Python
short-circuiting: the expected snapshot is only subscripted when the
corresponding node property is truthy (subscripting `None` raises). -/
def specDriftCpusPart (expected : Option ConfigSnapshot) (cpus : Option Int) :
    Except PyError Bool :=
  match cpus with
  | none => .ok false
  | some cv =>
      if cv == 0 then .ok false
      else
        match expected with
        | none => .error (.typeError "NoneType object is not subscriptable")
        | some cfg => .ok (cv != cfg.summary.numCpu)

/-- The full spec-drift condition of `check_drift`. -/
def specDriftCheck (expected : Option ConfigSnapshot) (memory cpus : Option Int) :
    Except PyError Bool :=
  match memory with
  | none => specDriftCpusPart expected cpus
  | some mv =>
      if mv == 0 then specDriftCpusPart expected cpus
      else
        match expected with
        | none => .error (.typeError "NoneType object is not subscriptable")
        | some cfg =>
            if mv != cfg.summary.memorySizeMB then .ok true
            else specDriftCpusPart expected cpus

/-- The runtime-property slice `check_drift` reads. -/
structure CheckDriftState where
  server_id : Option String
  networks : List NicRT
  expected_configuration : Option ConfigSnapshot
deriving Repr

/-- The platform object as `check_drift` observes it: its hardware
device list and the serialized current configuration. -/
structure DriftServerObj where
  devices : List EthDevice
  current_network : String
  current_summary : SummaryCfg
deriving Repr

/-- `check_drift()`.  Result: `(return value, network_update set,
spec_update set)` — the two flags model the runtime properties the
function writes when the corresponding drift fires. -/
def check_drift (st : CheckDriftState) (networking : NetworkingParams)
    (node_memory node_cpus : Option Int) (obj : DriftServerObj) :
    Except PyError (Bool × Bool × Bool) :=
  match st.server_id with
  | none => .error (.nonRecoverable ["Instance not configured correctly"])
  | some sid =>
      if sid.isEmpty then .error (.nonRecoverable ["Instance not configured correctly"])
      else
        let current : ConfigSnapshot :=
          { network := obj.current_network, summary := obj.current_summary }
        let existing := existingNetworks obj.devices st.networks 0
        let newNames := networking.connect_networks.map
          (fun n => NetName.declared (dictGetD n "name" .vNone))
        let network_update := utils_check_drift_names existing newNames
        match specDriftCheck st.expected_configuration node_memory node_cpus with
        | .error e => .error e
        | .ok spec_update =>
            if network_update || spec_update then
              .ok (true, network_update, spec_update)
            else
              .ok (utils_check_drift_config st.expected_configuration current,
                   network_update, spec_update)

/-- The `real_networks` list of `update`: the persisted names of the
Ethernet devices whose MAC matches a persisted entry. -/
def realNetworks : List EthDevice → List NicRT → List (Option String)
  | [], _ => []
  | d :: rest, nics =>
      if d.isEthernet then
        match matchNic d.macAddress nics with
        | some n => n.name :: realNetworks rest nics
        | none => realNetworks rest nics
      else realNetworks rest nics

/-- `to_remove` of `update`: attached names not among the newly declared
names. -/
def computeToRemove (real new_names : List (Option String)) : List (Option String) :=
  real.filter (fun n => !new_names.contains n)

/-- `to_add` of `update`: declared names not currently attached. -/
def computeToAdd (new_names real : List (Option String)) : List (Option String) :=
  new_names.filter (fun n => !real.contains n)

/-- The `nics_for_remove` loop of `update`: an Ethernet device is
scheduled for removal when its matched persisted network is in
`to_remove`, or when its MAC matches no persisted entry at all
(foreign device). -/
def nicsForRemove : List EthDevice → List NicRT → List (Option String) → List EthDevice
  | [], _, _ => []
  | d :: rest, nics, rem =>
      if d.isEthernet then
        match matchNic d.macAddress nics with
        | some n =>
            if rem.contains n.name then d :: nicsForRemove rest nics rem
            else nicsForRemove rest nics rem
        | none => d :: nicsForRemove rest nics rem
      else nicsForRemove rest nics rem

/-- The network-reconciliation plan computed inside `update`:
`(to_add, to_remove, nics_for_remove)` from the device list, the
persisted networks and the newly resolved declared names. -/
def update_network_plan (devices : List EthDevice) (nics : List NicRT)
    (new_names : List (Option String)) :
    List (Option String) × List (Option String) × List EthDevice :=
  let real := realNetworks devices nics
  let rem := computeToRemove real new_names
  (computeToAdd new_names real, rem, nicsForRemove devices nics rem)

lemma matchNic_eq_none {mac : String} {nics : List NicRT}
    (h : ∀ n ∈ nics, n.mac ≠ some mac) : matchNic mac nics = none := by
  induction nics with
  | nil => rfl
  | cons n rest ih =>
      unfold matchNic
      have hne : (n.mac == some mac) = false := by
        cases hm : n.mac == some mac
        · rfl
        · exact absurd (eq_of_beq hm) (h n (by simp))
      rw [hne]
      simp only [Bool.false_eq_true, if_false]
      exact ih (fun m hm => h m (by simp [hm]))

lemma existingNetworks_has_sentinel {devices : List EthDevice} {nics : List NicRT}
    {d : EthDevice}
    (hd : d ∈ devices) (heth : d.isEthernet = true)
    (hforeign : ∀ n ∈ nics, n.mac ≠ some d.macAddress) :
    ∀ fresh, ∃ k, NetName.sentinel k ∈ existingNetworks devices nics fresh := by
  induction devices with
  | nil => exact absurd hd (by simp)
  | cons e rest ih =>
      intro fresh
      rcases List.mem_cons.mp hd with hcase | hcase
      · subst hcase
        unfold existingNetworks
        rw [heth, matchNic_eq_none hforeign]
        exact ⟨fresh, by simp⟩
      · unfold existingNetworks
        cases hde : e.isEthernet
        · simpa using ih hcase fresh
        · cases hm : matchNic e.macAddress nics with
          | some n =>
              obtain ⟨k, hk⟩ := ih hcase fresh
              exact ⟨k, by simp [hk]⟩
          | none =>
              obtain ⟨k, hk⟩ := ih hcase (fresh + 1)
              exact ⟨k, by simp [hk]⟩

lemma nicsForRemove_mem_foreign {devices : List EthDevice} {nics : List NicRT}
    {d : EthDevice} (rem : List (Option String))
    (hd : d ∈ devices) (heth : d.isEthernet = true)
    (hforeign : ∀ n ∈ nics, n.mac ≠ some d.macAddress) :
    d ∈ nicsForRemove devices nics rem := by
  induction devices with
  | nil => exact absurd hd (by simp)
  | cons e rest ih =>
      rcases List.mem_cons.mp hd with hcase | hcase
      · subst hcase
        unfold nicsForRemove
        rw [heth, matchNic_eq_none hforeign]
        simp
      · unfold nicsForRemove
        cases hde : e.isEthernet
        · simpa using ih hcase
        · cases hm : matchNic e.macAddress nics with
          | some n =>
              by_cases hr : n.name ∈ rem
              · simp [hr, ih hcase]
              · simp [hr, ih hcase]
          | none => simp [ih hcase]

lemma specDriftCpusPart_ok (cfg : ConfigSnapshot) (cpus : Option Int) :
    ∃ b, specDriftCpusPart (some cfg) cpus = .ok b := by
  cases cpus with
  | none => exact ⟨false, rfl⟩
  | some cv =>
      by_cases hcv : (cv == 0) = true
      · exact ⟨false, by simp [specDriftCpusPart, hcv]⟩
      · exact ⟨cv != cfg.summary.numCpu, by simp [specDriftCpusPart, hcv]⟩

lemma specDriftCheck_ok (cfg : ConfigSnapshot) (memory cpus : Option Int) :
    ∃ b, specDriftCheck (some cfg) memory cpus = .ok b := by
  obtain ⟨b0, hb0⟩ := specDriftCpusPart_ok cfg cpus
  cases memory with
  | none => exact ⟨b0, hb0⟩
  | some mv =>
      by_cases hmv : (mv == 0) = true
      · exact ⟨b0, by simp [specDriftCheck, hmv, hb0]⟩
      · by_cases hdm : (mv != cfg.summary.memorySizeMB) = true
        · exact ⟨true, by simp [specDriftCheck, hmv, hdm]⟩
        · exact ⟨b0, by simp [specDriftCheck, hmv, hdm, hb0]⟩

/-- C5.  Foreign-device drift rule: for every persisted network list and
device list, an Ethernet device whose MAC matches no persisted
`{name, mac}` entry makes `check_drift` report drift (`True`, with the
`network_update` runtime flag set — a fresh sentinel is injected into the
compared list, so the structural diff always fires), and the subsequent
`update` computes that device into its removal set `nics_for_remove`. -/
theorem foreign_device_forces_drift_and_removal (st : CheckDriftState)
    (networking : NetworkingParams) (node_memory node_cpus : Option Int)
    (obj : DriftServerObj) (d : EthDevice) (sid : String) (cfg : ConfigSnapshot)
    (new_names : List (Option String))
    (hd : d ∈ obj.devices) (heth : d.isEthernet = true)
    (hforeign : ∀ n ∈ st.networks, n.mac ≠ some d.macAddress)
    (hsid : st.server_id = some sid) (hs : sid ≠ "")
    (hexp : st.expected_configuration = some cfg) :
    (∃ spec_update,
      check_drift st networking node_memory node_cpus obj
        = .ok (true, true, spec_update))
    ∧ d ∈ (update_network_plan obj.devices st.networks new_names).2.2 := by
  have hse : sid.isEmpty = false := by
    cases hie : sid.isEmpty
    · rfl
    · exact absurd ((String.isEmpty_iff sid).mp hie) hs
  have hdiff : utils_check_drift_names
      (existingNetworks obj.devices st.networks 0)
      (networking.connect_networks.map
        (fun n => NetName.declared (dictGetD n "name" .vNone))) = true := by
    obtain ⟨k, hk⟩ := existingNetworks_has_sentinel hd heth hforeign 0
    unfold utils_check_drift_names
    simp only [decide_eq_true_eq]
    intro hceq
    rw [hceq] at hk
    obtain ⟨n, _, hn⟩ := List.mem_map.mp hk
    exact NetName.noConfusion hn
  have hspec : ∃ b, specDriftCheck st.expected_configuration node_memory node_cpus
      = .ok b := by
    rw [hexp]
    exact specDriftCheck_ok cfg node_memory node_cpus
  obtain ⟨b, hb⟩ := hspec
  constructor
  · refine ⟨b, ?_⟩
    unfold check_drift
    rw [hsid]
    simp only [hse, Bool.false_eq_true, if_false]
    rw [hb]
    simp [hdiff]
  · unfold update_network_plan
    exact nicsForRemove_mem_foreign _ hd heth hforeign

/-- Witness for C5: persisted nics `[{name: net1, mac: AA:...}]`, one
current Ethernet device with a different MAC. -/
theorem foreign_device_forces_drift_and_removal_witness :
    (∃ spec_update,
      check_drift
        { server_id := some "vm-42",
          networks := [{ name := some "net1", mac := some "AA:BB:CC:DD:EE:01",
                         ip := some "10.0.0.5" }],
          expected_configuration :=
            some { network := "net-json",
                   summary := { numCpu := 2, memorySizeMB := 1024, rest := "cfg" } } }
        { connect_networks := [[("name", .vStr "net1")]] }
        none none
        { devices := [{ isEthernet := true, macAddress := "FF:FF:FF:FF:FF:99" }],
          current_network := "net-json",
          current_summary := { numCpu := 2, memorySizeMB := 1024, rest := "cfg" } }
        = .ok (true, true, spec_update))
    ∧ { isEthernet := true, macAddress := "FF:FF:FF:FF:FF:99" }
        ∈ (update_network_plan
            [{ isEthernet := true, macAddress := "FF:FF:FF:FF:FF:99" }]
            [{ name := some "net1", mac := some "AA:BB:CC:DD:EE:01",
               ip := some "10.0.0.5" }]
            [some "net1"]).2.2 :=
  foreign_device_forces_drift_and_removal
    { server_id := some "vm-42",
      networks := [{ name := some "net1", mac := some "AA:BB:CC:DD:EE:01",
                     ip := some "10.0.0.5" }],
      expected_configuration :=
        some { network := "net-json",
               summary := { numCpu := 2, memorySizeMB := 1024, rest := "cfg" } } }
    { connect_networks := [[("name", .vStr "net1")]] }
    none none
    { devices := [{ isEthernet := true, macAddress := "FF:FF:FF:FF:FF:99" }],
      current_network := "net-json",
      current_summary := { numCpu := 2, memorySizeMB := 1024, rest := "cfg" } }
    { isEthernet := true, macAddress := "FF:FF:FF:FF:FF:99" }
    "vm-42"
    { network := "net-json",
      summary := { numCpu := 2, memorySizeMB := 1024, rest := "cfg" } }
    [some "net1"]
    (by decide) rfl (by decide) rfl (by decide) rfl

/-! ## Supporting lemmas for the exclusivity and ordering claims -/

lemma dictGet?_dictSet_self (d : PyDict) (k : String) (v : PVal) :
    dictGet? (dictSet d k v) k = some v := by
  induction d with
  | nil => simp [dictSet, dictGet?]
  | cons e rest ih =>
      obtain ⟨k1, v1⟩ := e
      by_cases hk : k1 = k
      · simp [dictSet, dictGet?, hk]
      · simp [dictSet, dictGet?, hk, ih]

lemma dictGet?_dictSet_ne (d : PyDict) {k k1 : String} (v : PVal) (h : k1 ≠ k) :
    dictGet? (dictSet d k v) k1 = dictGet? d k1 := by
  have hne : k ≠ k1 := fun hc => h hc.symm
  induction d with
  | nil => simp [dictSet, dictGet?, hne]
  | cons e rest ih =>
      obtain ⟨k2, v2⟩ := e
      by_cases hk : k2 = k
      · subst hk
        have hq : k2 ≠ k1 := hne
        simp [dictSet, dictGet?, hq]
      · by_cases hq : k2 = k1
        · subst hq
          simp [dictSet, dictGet?, hk]
        · simp [dictSet, dictGet?, hk, hq, ih]

lemma lookup3_none_iff (vals : List (String × VType × PVal)) (k : String) :
    lookup3 vals k = none ↔ ∀ e ∈ vals, e.1 ≠ k := by
  induction vals with
  | nil => simp [lookup3]
  | cons e rest ih =>
      obtain ⟨k1, ty, d⟩ := e
      by_cases hk : k1 = k
      · simp [lookup3, hk]
      · simp [lookup3, hk, ih]

lemma lookup3_none_of_sublist {vals1 vals : List (String × VType × PVal)} {k : String}
    (hs : List.Sublist vals1 vals) (h : lookup3 vals k = none) : lookup3 vals1 k = none :=
  (lookup3_none_iff vals1 k).mpr
    (fun e he => (lookup3_none_iff vals k).mp h e (hs.subset he))

lemma mem_of_lookup3_nodup {vals : List (String × VType × PVal)} {k : String}
    {ty : VType} {d : PVal}
    (hnd : (vals.map Prod.fst).Nodup) (hmem : (k, ty, d) ∈ vals) :
    lookup3 vals k = some (ty, d) := by
  induction vals with
  | nil => exact absurd hmem (by simp)
  | cons e rest ih =>
      obtain ⟨k1, ty1, d1⟩ := e
      simp only [List.map_cons, List.nodup_cons] at hnd
      obtain ⟨hk1, hrest⟩ := hnd
      rcases List.mem_cons.mp hmem with hcase | hcase
      · simp only [Prod.mk.injEq] at hcase
        obtain ⟨h1, h2, h3⟩ := hcase
        simp [lookup3, h1, h2, h3]
      · have hne : k1 ≠ k := by
          intro hc
          subst hc
          exact hk1 (List.mem_map_of_mem Prod.fst hcase)
        simp only [lookup3, if_neg hne]
        exact ih hrest hcase

lemma popVal_sublist {k : String} {vals vals1 : List (String × VType × PVal)}
    {td : VType × PVal}
    (h : popVal k vals = some (td, vals1)) : List.Sublist vals1 vals := by
  induction vals generalizing vals1 with
  | nil => simp [popVal] at h
  | cons e rest ih =>
      obtain ⟨k1, ty1, d1⟩ := e
      by_cases hk : k1 = k
      · simp only [popVal, if_pos hk, Option.some.injEq, Prod.mk.injEq] at h
        rw [← h.2]
        exact List.sublist_cons_self _ _
      · simp only [popVal, if_neg hk] at h
        cases hp : popVal k rest with
        | none => rw [hp] at h; simp at h
        | some p =>
            rw [hp] at h
            obtain ⟨td1, rest1⟩ := p
            simp only [Option.some.injEq, Prod.mk.injEq] at h
            rw [← h.2]
            exact (ih (by rw [hp, h.1])).cons₂ _

lemma popVal_mem {k : String} {vals vals1 : List (String × VType × PVal)}
    {ty : VType} {d : PVal}
    (h : popVal k vals = some ((ty, d), vals1)) : (k, ty, d) ∈ vals := by
  induction vals generalizing vals1 with
  | nil => simp [popVal] at h
  | cons e rest ih =>
      obtain ⟨k1, ty1, d1⟩ := e
      by_cases hk : k1 = k
      · simp only [popVal, if_pos hk, Option.some.injEq, Prod.mk.injEq] at h
        exact List.mem_cons.mpr (Or.inl (by simp [hk, h.1.1, h.1.2]))
      · simp only [popVal, if_neg hk] at h
        cases hp : popVal k rest with
        | none => rw [hp] at h; simp at h
        | some p =>
            rw [hp] at h
            obtain ⟨td1, rest1⟩ := p
            simp only [Option.some.injEq, Prod.mk.injEq] at h
            exact List.mem_cons_of_mem _ (ih (by rw [hp, h.1]))

lemma popVal_nodup_lookup_none {k : String} {vals vals1 : List (String × VType × PVal)}
    {td : VType × PVal}
    (hnd : (vals.map Prod.fst).Nodup)
    (h : popVal k vals = some (td, vals1)) : lookup3 vals1 k = none := by
  induction vals generalizing vals1 with
  | nil => simp [popVal] at h
  | cons e rest ih =>
      obtain ⟨k1, ty1, d1⟩ := e
      simp only [List.map_cons, List.nodup_cons] at hnd
      obtain ⟨hk1, hrest⟩ := hnd
      by_cases hk : k1 = k
      · simp only [popVal, if_pos hk, Option.some.injEq, Prod.mk.injEq] at h
        rw [← h.2]
        subst hk
        exact (lookup3_none_iff rest k1).mpr
          (fun e he hc => hk1 (hc ▸ List.mem_map_of_mem Prod.fst he))
      · simp only [popVal, if_neg hk] at h
        cases hp : popVal k rest with
        | none => rw [hp] at h; simp at h
        | some p =>
            rw [hp] at h
            obtain ⟨td1, rest1⟩ := p
            simp only [Option.some.injEq, Prod.mk.injEq] at h
            rw [← h.2]
            simp only [lookup3, if_neg hk]
            exact ih hrest (by rw [hp, h.1])

lemma lookup3_eraseKey_ne {k k0 : String} (vals : List (String × VType × PVal))
    (h : k ≠ k0) : lookup3 (eraseKey k0 vals) k = lookup3 vals k := by
  induction vals with
  | nil => rfl
  | cons e rest ih =>
      obtain ⟨k1, ty1, d1⟩ := e
      by_cases hk : k1 = k0
      · subst hk
        have hq : k1 ≠ k := fun hc => h hc.symm
        simp [eraseKey, lookup3, hq]
      · by_cases hq : k1 = k
        · subst hq
          simp [eraseKey, lookup3, hk]
        · simp [eraseKey, lookup3, hk, hq, ih]

lemma eraseKey_sublist (k : String) (vals : List (String × VType × PVal)) :
    List.Sublist (eraseKey k vals) vals := by
  induction vals with
  | nil => simp [eraseKey]
  | cons e rest ih =>
      obtain ⟨k1, ty1, d1⟩ := e
      by_cases hk : k1 = k
      · simp only [eraseKey, if_pos hk]
        exact List.sublist_cons_self _ _
      · simp only [eraseKey, if_neg hk]
        exact ih.cons₂ _

lemma vcnStep_vals_sublist (st : VCNState) (kv : String × PVal) :
    List.Sublist (vcnStep st kv).vals st.vals := by
  unfold vcnStep
  cases hp : popVal kv.1 st.vals with
  | none => exact List.Sublist.refl _
  | some p =>
      obtain ⟨⟨ty, d⟩, vals1⟩ := p
      have hs := popVal_sublist hp
      by_cases hfb : (!pyTruthy kv.2 && ty != VType.tBool) = true
      · simp [hfb, hs]
      · by_cases hit : isinstance kv.2 ty
        · simp [hfb, hit, hs]
        · simp [hfb, hit, hs]

lemma vcnLoop_vals_sublist (items : List (String × PVal)) :
    ∀ st : VCNState, List.Sublist (vcnLoop items st).vals st.vals := by
  induction items with
  | nil => intro st; simp [vcnLoop]
  | cons kv rest ih =>
      intro st
      exact (ih (vcnStep st kv)).trans (vcnStep_vals_sublist st kv)

lemma vcnLoop_net_bool_key (items : List (String × PVal)) :
    ∀ (st : VCNState) (k : String),
    (∀ ty d, (k, ty, d) ∈ st.vals → ty = .tBool) →
    dictGet? (vcnLoop items st).net k = dictGet? st.net k := by
  induction items with
  | nil => intro st k _; simp [vcnLoop]
  | cons kv rest ih =>
      intro st k hbool
      obtain ⟨k1, v1⟩ := kv
      show dictGet? (vcnLoop rest (vcnStep st (k1, v1))).net k = dictGet? st.net k
      have hbool1 : ∀ ty d, (k, ty, d) ∈ (vcnStep st (k1, v1)).vals → ty = .tBool :=
        fun ty d hm => hbool ty d ((vcnStep_vals_sublist st (k1, v1)).subset hm)
      rw [ih (vcnStep st (k1, v1)) k hbool1]
      unfold vcnStep
      cases hp : popVal k1 st.vals with
      | none => rfl
      | some p =>
          obtain ⟨⟨ty, d⟩, vals1⟩ := p
          by_cases hfb : (!pyTruthy v1 && ty != VType.tBool) = true
          · simp only [hfb, if_pos rfl]
            have hty : ty ≠ .tBool := by
              have := (Bool.and_eq_true ..).mp hfb
              exact bne_iff_ne .. |>.mp this.2
            have hne : k ≠ k1 := by
              intro hc
              exact hty (hbool ty d (hc ▸ popVal_mem hp))
            exact dictGet?_dictSet_ne st.net d hne
          · by_cases hit : isinstance v1 ty
            · simp [hfb, hit]
            · simp [hfb, hit]

lemma vcnLoop_vals_lookup_of_not_mem (items : List (String × PVal)) :
    ∀ (st : VCNState) (k : String), k ∉ items.map Prod.fst →
    lookup3 (vcnLoop items st).vals k = lookup3 st.vals k := by
  induction items with
  | nil => intro st k _; simp [vcnLoop]
  | cons kv rest ih =>
      intro st k hk
      obtain ⟨k1, v1⟩ := kv
      simp only [List.map_cons, List.mem_cons, not_or] at hk
      obtain ⟨hk1, hkrest⟩ := hk
      show lookup3 (vcnLoop rest (vcnStep st (k1, v1))).vals k = lookup3 st.vals k
      rw [ih (vcnStep st (k1, v1)) k hkrest]
      unfold vcnStep
      cases hp : popVal k1 st.vals with
      | none => rfl
      | some p =>
          obtain ⟨⟨ty, d⟩, vals1⟩ := p
          have hlk := popVal_some_lookup_ne hp hk1
          by_cases hfb : (!pyTruthy v1 && ty != VType.tBool) = true
          · simpa [hfb] using hlk
          · by_cases hit : isinstance v1 ty
            · simpa [hfb, hit] using hlk
            · simpa [hfb, hit] using hlk

lemma vcnLoop_vals_lookup_none (items : List (String × PVal)) :
    ∀ (st : VCNState) (k : String), k ∈ items.map Prod.fst →
    (items.map Prod.fst).Nodup → ((st.vals.map Prod.fst).Nodup) →
    lookup3 (vcnLoop items st).vals k = none := by
  induction items with
  | nil => intro st k hk _ _; exact absurd hk (by simp)
  | cons kv rest ih =>
      intro st k hk hnd hvnd
      obtain ⟨k1, v1⟩ := kv
      simp only [List.map_cons, List.nodup_cons] at hnd
      obtain ⟨hnd1, hndrest⟩ := hnd
      show lookup3 (vcnLoop rest (vcnStep st (k1, v1))).vals k = none
      by_cases hcase : k1 = k
      · subst hcase
        have hnone : lookup3 (vcnStep st (k1, v1)).vals k1 = none := by
          unfold vcnStep
          cases hp : popVal k1 st.vals with
          | none =>
              simpa using (popVal_eq_none_iff k1 st.vals).mp hp
          | some p =>
              obtain ⟨⟨ty, d⟩, vals1⟩ := p
              have hn := popVal_nodup_lookup_none hvnd hp
              by_cases hfb : (!pyTruthy v1 && ty != VType.tBool) = true
              · simpa [hfb] using hn
              · by_cases hit : isinstance v1 ty
                · simpa [hfb, hit] using hn
                · simpa [hfb, hit] using hn
        exact lookup3_none_of_sublist (vcnLoop_vals_sublist rest _) hnone
      · have hkrest : k ∈ rest.map Prod.fst := by
          rcases List.mem_cons.mp hk with hc | hc
          · exact absurd hc.symm hcase
          · exact hc
        have hvnd1 : ((vcnStep st (k1, v1)).vals.map Prod.fst).Nodup :=
          ((vcnStep_vals_sublist st (k1, v1)).map Prod.fst).nodup hvnd
        exact ih (vcnStep st (k1, v1)) k hkrest hndrest hvnd1

lemma fillDefaults_lookup_none (vals : List (String × VType × PVal)) :
    ∀ (net : PyDict) (k : String), lookup3 vals k = none →
    dictGet? (fillDefaults net vals) k = dictGet? net k := by
  induction vals with
  | nil => intro net k _; rfl
  | cons e rest ih =>
      intro net k hlk
      obtain ⟨k1, ty1, d1⟩ := e
      have hne : k1 ≠ k := by
        intro hc
        simp [lookup3, hc] at hlk
      have hrest : lookup3 rest k = none := by
        simpa [lookup3, hne] using hlk
      show dictGet? (fillDefaults (dictSet net k1 d1) rest) k = dictGet? net k
      rw [ih (dictSet net k1 d1) k hrest]
      exact dictGet?_dictSet_ne net d1 (fun hc => hne hc.symm)

lemma fillDefaults_lookup_some (vals : List (String × VType × PVal)) :
    ∀ (net : PyDict) (k : String) (ty : VType) (d : PVal),
    (vals.map Prod.fst).Nodup → lookup3 vals k = some (ty, d) →
    dictGet? (fillDefaults net vals) k = some d := by
  induction vals with
  | nil => intro net k ty d _ hlk; simp [lookup3] at hlk
  | cons e rest ih =>
      intro net k ty d hnd hlk
      obtain ⟨k1, ty1, d1⟩ := e
      simp only [List.map_cons, List.nodup_cons] at hnd
      obtain ⟨hnd1, hndrest⟩ := hnd
      by_cases hk : k1 = k
      · subst hk
        simp only [lookup3, if_true, Option.some.injEq, Prod.mk.injEq, if_pos] at hlk
        have hrest : lookup3 rest k1 = none :=
          (lookup3_none_iff rest k1).mpr
            (fun e he hc => hnd1 (hc ▸ List.mem_map_of_mem Prod.fst he))
        show dictGet? (fillDefaults (dictSet net k1 d1) rest) k1 = some d
        rw [fillDefaults_lookup_none rest (dictSet net k1 d1) k1 hrest,
            dictGet?_dictSet_self, hlk.2]
      · simp only [lookup3, if_neg hk] at hlk
        show dictGet? (fillDefaults (dictSet net k1 d1) rest) k = some d
        exact ih (dictSet net k1 d1) k ty d hndrest hlk

lemma dictGet?_some_mem {d : PyDict} {k : String} {v : PVal}
    (h : dictGet? d k = some v) : (k, v) ∈ d := by
  induction d with
  | nil => simp [dictGet?] at h
  | cons e rest ih =>
      obtain ⟨k1, v1⟩ := e
      by_cases hk : k1 = k
      · subst hk
        simp [dictGet?] at h
        exact List.mem_cons.mpr (Or.inl (by rw [h]))
      · simp only [dictGet?, if_neg hk] at h
        exact List.mem_cons.mpr (Or.inr (ih h))

lemma dictGet?_none_not_mem {d : PyDict} {k : String}
    (h : dictGet? d k = none) : k ∉ d.map Prod.fst := by
  induction d with
  | nil => simp
  | cons e rest ih =>
      obtain ⟨k1, v1⟩ := e
      by_cases hk : k1 = k
      · simp [dictGet?, hk] at h
      · simp only [dictGet?, if_neg hk] at h
        simp only [List.map_cons, List.mem_cons, not_or]
        exact ⟨fun hc => hk hc.symm, ih h⟩

/-- The initial loop state of `validate_connect_network`. -/
def vcnInit (net : PyDict) : VCNState :=
  { vals := startVals net,
    flag := vcnConflict net || vcnNameFalsy net,
    errs := (if vcnConflict net then [conflictMsg] else [])
            ++ (if vcnNameFalsy net then [noNameMsg] else []),
    net := net }

lemma validate_connect_network_eq_init (net : PyDict) :
    validate_connect_network net
      = (if (vcnLoop net (vcnInit net)).flag then
          .error (.nonRecoverable
            ("Network failed validation: " :: (vcnLoop net (vcnInit net)).errs))
        else
          .ok (fillDefaults (vcnLoop net (vcnInit net)).net
                (vcnLoop net (vcnInit net)).vals)) := rfl

/-- Inversion of a successful validation: the error flag stayed down, the
output is the defaults-filled loop dictionary, and no item had a
violation. -/
lemma validate_ok_inv {net out : PyDict} (hnd : (net.map Prod.fst).Nodup)
    (hout : validate_connect_network net = .ok out) :
    out = fillDefaults (vcnLoop net (vcnInit net)).net (vcnLoop net (vcnInit net)).vals
    ∧ ∀ kv ∈ net, itemViolation (startVals net) kv.1 kv.2 = none := by
  rw [validate_connect_network_eq_init] at hout
  by_cases hflag : (vcnLoop net (vcnInit net)).flag
  · rw [if_pos hflag] at hout
    exact absurd hout (by simp)
  · rw [if_neg hflag] at hout
    have hfl : (vcnLoop net (vcnInit net)).flag = false := by simpa using hflag
    refine ⟨by simpa using hout.symm, ?_⟩
    obtain ⟨he, hf⟩ := vcnLoop_spec net (vcnInit net) hnd
    rw [hfl] at hf
    have hmt : (net.filterMap
        (fun kv => itemViolation (vcnInit net).vals kv.1 kv.2)).isEmpty = true := by
      cases hie : (net.filterMap
          (fun kv => itemViolation (vcnInit net).vals kv.1 kv.2)).isEmpty
      · rw [hie] at hf; simp at hf
      · rfl
    have hnil : net.filterMap (fun kv => itemViolation (startVals net) kv.1 kv.2)
        = [] := by
      have : (vcnInit net).vals = startVals net := rfl
      rw [← this]
      exact List.isEmpty_iff.mp hmt
    intro kv hkv
    exact (List.filterMap_eq_nil_iff.mp hnil) kv hkv

/-- Key lemma for the exclusivity and ordering claims: validation of a
boolean-typed key with default `False` (such as `external` or
`management`) succeeds exactly when the input value is a `bool` (or the
key is absent), and the validated output carries `vBool` of the input
truthiness. -/
lemma validate_bool_key {net out : PyDict} {k : String}
    (hk : lookup3 network_validations k = some (.tBool, .vBool false))
    (hkname : k ≠ "name")
    (hnd : (net.map Prod.fst).Nodup)
    (hout : validate_connect_network net = .ok out) :
    dictGet? out k = some (.vBool (pyTruthy (dictGetD net k .vNone))) := by
  obtain ⟨hO, hviol⟩ := validate_ok_inv hnd hout
  have hstart : lookup3 (startVals net) k = some (.tBool, .vBool false) := by
    unfold startVals
    by_cases hnf : vcnNameFalsy net
    · rw [if_pos hnf, lookup3_eraseKey_ne _ hkname]; exact hk
    · rw [if_neg hnf]; exact hk
  have hsvnd : ((startVals net).map Prod.fst).Nodup := by
    unfold startVals
    by_cases hnf : vcnNameFalsy net
    · rw [if_pos hnf]; decide
    · rw [if_neg hnf]; decide
  have hboolhyp : ∀ ty d, (k, ty, d) ∈ (vcnInit net).vals → ty = .tBool := by
    intro ty d hm
    have hl : lookup3 (startVals net) k = some (ty, d) := mem_of_lookup3_nodup hsvnd hm
    rw [hstart] at hl
    simp only [Option.some.injEq, Prod.mk.injEq] at hl
    exact hl.1.symm
  have hNet : dictGet? (vcnLoop net (vcnInit net)).net k = dictGet? net k :=
    vcnLoop_net_bool_key net (vcnInit net) k hboolhyp
  cases hget : dictGet? net k with
  | some v =>
      have hmem : (k, v) ∈ net := dictGet?_some_mem hget
      have hvi := hviol (k, v) hmem
      have hb : ∃ b, v = PVal.vBool b := by
        unfold itemViolation at hvi
        rw [hstart] at hvi
        cases v with
        | vBool b => exact ⟨b, rfl⟩
        | vNone => simp [pyTruthy, isinstance] at hvi
        | vInt n => simp [pyTruthy, isinstance] at hvi
        | vStr s => simp [pyTruthy, isinstance] at hvi
      obtain ⟨b, rfl⟩ := hb
      have hkmem : k ∈ net.map Prod.fst := List.mem_map_of_mem Prod.fst hmem
      have hvalsnone : lookup3 (vcnLoop net (vcnInit net)).vals k = none :=
        vcnLoop_vals_lookup_none net (vcnInit net) k hkmem hnd hsvnd
      rw [hO, fillDefaults_lookup_none _ _ _ hvalsnone, hNet, hget]
      unfold dictGetD
      rw [hget]
      rfl
  | none =>
      have hknotmem : k ∉ net.map Prod.fst := dictGet?_none_not_mem hget
      have hlk2 : lookup3 (vcnLoop net (vcnInit net)).vals k = lookup3 (startVals net) k :=
        vcnLoop_vals_lookup_of_not_mem net (vcnInit net) k hknotmem
      have hvnd2 : ((vcnLoop net (vcnInit net)).vals.map Prod.fst).Nodup :=
        ((vcnLoop_vals_sublist net (vcnInit net)).map Prod.fst).nodup hsvnd
      rw [hO, fillDefaults_lookup_some _ _ _ _ _ hvnd2 (hlk2.trans hstart)]
      unfold dictGetD
      rw [hget]
      rfl

/-- Validation of every entry of a list, in order (the per-entry part of
the reorder loop of `handle_networks`). -/
def validateAll : List PyDict → Except PyError (List PyDict)
  | [] => .ok []
  | n :: rest =>
      match validate_connect_network n with
      | .error e => .error e
      | .ok n1 =>
          match validateAll rest with
          | .error e => .error e
          | .ok rest1 => .ok (n1 :: rest1)

/-- An entry carrying literally `key = True`. -/
def hasKeyTrue (k : String) (n : PyDict) : Bool :=
  dictGet? n k == some (.vBool true)

/-- Number of entries with literally `key = True`. -/
def countKeyTrue (l : List PyDict) (k : String) : Nat :=
  (l.filter (hasKeyTrue k)).length

lemma dictGetD_false_vNone (n : PyDict) (k : String) :
    pyTruthy (dictGetD n k (.vBool false)) = pyTruthy (dictGetD n k .vNone) := by
  unfold dictGetD
  cases dictGet? n k <;> rfl

lemma validateAll_counts {k : String}
    (hk : lookup3 network_validations k = some (.tBool, .vBool false))
    (hkname : k ≠ "name") :
    ∀ {cns vn : List PyDict},
    (∀ n ∈ cns, (n.map Prod.fst).Nodup) →
    validateAll cns = .ok vn →
    countKeyTrue vn k = countTruthy cns k
    ∧ (vn.filter (fun n => pyTruthy (dictGetD n k .vNone))).length
        = countTruthy cns k := by
  intro cns
  induction cns with
  | nil =>
      intro vn _ h
      have : vn = [] := by simpa [validateAll] using h.symm
      subst this
      exact ⟨rfl, rfl⟩
  | cons n rest ih =>
      intro vn hnd h
      unfold validateAll at h
      cases hv : validate_connect_network n with
      | error e => rw [hv] at h; simp at h
      | ok n1 =>
          rw [hv] at h
          cases hva : validateAll rest with
          | error e => rw [hva] at h; simp at h
          | ok vrest =>
              rw [hva] at h
              simp only [Except.ok.injEq] at h
              subst h
              have hrest := ih (fun m hm => hnd m (by simp [hm])) hva
              have hkey := validate_bool_key hk hkname (hnd n (by simp)) hv
              have hcount : countTruthy (n :: rest) k
                  = (if pyTruthy (dictGetD n k .vNone) then 1 else 0)
                    + countTruthy rest k := by
                unfold countTruthy
                rw [List.filter_cons]
                rw [dictGetD_false_vNone]
                cases pyTruthy (dictGetD n k .vNone) <;> simp [Nat.add_comm]
              have h1 := hrest.1
              have h2 := hrest.2
              unfold countKeyTrue at h1
              constructor
              · unfold countKeyTrue
                rw [List.filter_cons]
                have hh : hasKeyTrue k n1 = pyTruthy (dictGetD n k .vNone) := by
                  unfold hasKeyTrue
                  rw [hkey]
                  cases pyTruthy (dictGetD n k .vNone) <;> rfl
                rw [hh, hcount]
                cases pyTruthy (dictGetD n k .vNone) <;>
                  simp [h1, Nat.add_comm]
              · rw [List.filter_cons]
                have hh : pyTruthy (dictGetD n1 k .vNone)
                    = pyTruthy (dictGetD n k .vNone) := by
                  unfold dictGetD
                  rw [hkey]
                  rfl
                rw [hh, hcount]
                cases pyTruthy (dictGetD n k .vNone) <;>
                  simp [h2, Nat.add_comm]

/-- The branch predicate of the reorder loop, on validated entries. -/
def extTruthy (n : PyDict) : Bool := pyTruthy (dictGetD n "external" .vNone)

/-- Shape of the reorder loop result: validated externals (in reverse
insertion order) first, then the starting accumulator, then the
validated non-external entries in original order. -/
lemma reorderLoop_spec : ∀ (cns acc out : List PyDict),
    reorderLoop cns acc = .ok out →
    ∃ vn, validateAll cns = .ok vn ∧
      out = (vn.filter extTruthy).reverse ++ acc
            ++ vn.filter (fun n => !extTruthy n) := by
  intro cns
  induction cns with
  | nil =>
      intro acc out h
      refine ⟨[], rfl, ?_⟩
      simpa [reorderLoop] using h.symm
  | cons n rest ih =>
      intro acc out h
      unfold reorderLoop at h
      cases hv : validate_connect_network n with
      | error e => rw [hv] at h; simp at h
      | ok n1 =>
          rw [hv] at h
          simp only at h
          cases hge : dictGet? n1 "external" with
          | none => rw [hge] at h; simp at h
          | some v =>
              rw [hge] at h
              simp only at h
              have hext : extTruthy n1 = pyTruthy v := by
                unfold extTruthy dictGetD
                rw [hge]
                rfl
              cases hpt : pyTruthy v with
              | true =>
                  rw [hpt] at h
                  simp only [if_true] at h
                  obtain ⟨vn, hva, hshape⟩ := ih (n1 :: acc) out h
                  refine ⟨n1 :: vn, by simp [validateAll, hv, hva], ?_⟩
                  rw [hshape, List.filter_cons, List.filter_cons]
                  rw [hext, hpt]
                  simp
              | false =>
                  rw [hpt] at h
                  simp only [Bool.false_eq_true, if_false] at h
                  obtain ⟨vn, hva, hshape⟩ := ih (acc ++ [n1]) out h
                  refine ⟨n1 :: vn, by simp [validateAll, hv, hva], ?_⟩
                  rw [hshape, List.filter_cons, List.filter_cons]
                  rw [hext, hpt]
                  simp

lemma dictSet_keys (d : PyDict) (k : String) (v : PVal) :
    (dictSet d k v).map Prod.fst
      = if k ∈ d.map Prod.fst then d.map Prod.fst else d.map Prod.fst ++ [k] := by
  induction d with
  | nil => simp [dictSet]
  | cons e rest ih =>
      obtain ⟨k1, v1⟩ := e
      by_cases hk : k1 = k
      · subst hk
        simp [dictSet]
      · have hne : k ≠ k1 := fun hc => hk hc.symm
        simp only [dictSet, if_neg hk, List.map_cons, ih]
        by_cases hm : k ∈ rest.map Prod.fst
        · simp [hm, hne]
        · simp [hm, hne]

lemma dictSet_keys_nodup {d : PyDict} {k : String} {v : PVal}
    (hnd : (d.map Prod.fst).Nodup) : ((dictSet d k v).map Prod.fst).Nodup := by
  rw [dictSet_keys]
  by_cases hm : k ∈ d.map Prod.fst
  · simpa [hm] using hnd
  · simp only [hm, if_false]
    simp [List.nodup_append, hnd, hm]

lemma dictUpdate_keys_nodup (src : List (String × PVal)) :
    ∀ {d : PyDict}, (d.map Prod.fst).Nodup → ((dictUpdate d src).map Prod.fst).Nodup := by
  induction src with
  | nil => intro d hnd; exact hnd
  | cons kv rest ih =>
      intro d hnd
      show ((dictUpdate (dictSet d kv.1 kv.2) rest).map Prod.fst).Nodup
      exact ih (dictSet_keys_nodup hnd)

lemma mergeLoop_nodup {cnName : PVal} {cn : PyDict} :
    ∀ {props props1 : List PyDict},
    mergeLoop cnName cn props = .ok props1 →
    (∀ n ∈ props, (n.map Prod.fst).Nodup) →
    ∀ n ∈ props1, (n.map Prod.fst).Nodup := by
  intro props
  induction props with
  | nil =>
      intro props1 h _
      have : props1 = [] := by simpa [mergeLoop] using h.symm
      subst this
      simp
  | cons p rest ih =>
      intro props1 h hnd
      unfold mergeLoop at h
      cases hgp : dictGet? p "name" with
      | none => rw [hgp] at h; simp at h
      | some pn =>
          rw [hgp] at h
          cases hm : mergeLoop cnName cn rest with
          | error e => rw [hm] at h; simp at h
          | ok rest1 =>
              rw [hm] at h
              simp only [Except.ok.injEq] at h
              subst h
              intro n hn
              rcases List.mem_cons.mp hn with hc | hc
              · subst hc
                by_cases hcond : (pyEq cnName pn
                    && pyTruthy (dictGetD p "from_relationship" .vNone)) = true
                · simp only [hcond, if_pos rfl]
                  exact dictUpdate_keys_nodup cn (hnd p (by simp))
                · simp only [hcond]
                  simp only [Bool.false_eq_true, if_false]
                  exact hnd p (by simp)
              · exact ih hm (fun m hm2 => hnd m (by simp [hm2])) n hc

lemma gcn_nodup : ∀ (rels : List RelNic) (props : List PyDict) (ids : List String)
    (out : List PyDict) (xids : List String),
    (∀ n ∈ props, (n.map Prod.fst).Nodup) →
    (∀ r ∈ rels, ∀ cn, r.connected_network = some cn → (cn.map Prod.fst).Nodup) →
    get_connected_networks props rels ids = .ok (out, xids) →
    ∀ n ∈ out, (n.map Prod.fst).Nodup := by
  intro rels
  induction rels with
  | nil =>
      intro props ids out xids hp _ h
      have : props = out := (by simpa [get_connected_networks] using h : _ ∧ _).1
      exact this ▸ hp
  | cons r rest ih =>
      intro props ids out xids hp hr h
      unfold get_connected_networks at h
      cases hcn : r.connected_network with
      | none => rw [hcn] at h; simp at h
      | some cn =>
          rw [hcn] at h
          simp only at h
          by_cases hemp : cn.isEmpty
          · rw [if_pos hemp] at h; simp at h
          · rw [if_neg hemp] at h
            by_cases hnv : (!pyTruthy (dictGetD cn "name" (relFallbackName r))) = true
            · rw [if_pos hnv] at h; simp at h
            · rw [if_neg hnv] at h
              cases hm : mergeLoop (dictGetD cn "name" (relFallbackName r))
                  (dictSet cn "name" (dictGetD cn "name" (relFallbackName r))) props with
              | error e => rw [hm] at h; simp at h
              | ok props1 =>
                  rw [hm] at h
                  have hcnnd : ((dictSet cn "name"
                      (dictGetD cn "name" (relFallbackName r))).map Prod.fst).Nodup :=
                    dictSet_keys_nodup (hr r (by simp) cn hcn)
                  have hp1 : ∀ n ∈ props1 ++ [dictSet cn "name"
                      (dictGetD cn "name" (relFallbackName r))],
                      (n.map Prod.fst).Nodup := by
                    intro n hn
                    rcases List.mem_append.mp hn with hc | hc
                    · exact mergeLoop_nodup hm hp n hc
                    · simpa using (List.mem_singleton.mp hc) ▸ hcnnd
                  exact ih _ _ _ _ hp1
                    (fun r2 hr2 cn2 hcn2 => hr r2 (by simp [hr2]) cn2 hcn2) h

lemma reverse_of_length_le_one {α : Type} {l : List α} (h : l.length ≤ 1) :
    l.reverse = l := by
  match l with
  | [] => rfl
  | [a] => rfl
  | a :: b :: t => simp at h

/-- C7.  Exclusivity invariant of `handle_networks` (inputs are Python
dictionaries, hence duplicate-free keys): a successfully resolved list
never contains more than one entry with `external = True` nor more than
one with `management = True`; and whenever the combined
declared-plus-relationship input has more than one truthy `external`
(resp. `management`) network, `handle_networks` raises the
non-recoverable error naming that constraint. -/
theorem handle_networks_exclusivity (networking : NetworkingParams)
    (rels : List RelNic) (nic_ids : List String)
    (hprops : ∀ n ∈ networking.connect_networks, (n.map Prod.fst).Nodup)
    (hrels : ∀ r ∈ rels, ∀ cn, r.connected_network = some cn → (cn.map Prod.fst).Nodup) :
    (∀ out, handle_networks networking rels nic_ids = .ok out →
        countKeyTrue out "external" ≤ 1 ∧ countKeyTrue out "management" ≤ 1)
    ∧ ∀ cns ids,
        get_connected_networks networking.connect_networks rels nic_ids
          = .ok (cns, ids) →
        (countTruthy cns "external" > 1 →
          handle_networks networking rels nic_ids
            = .error (.nonRecoverable
                ["No more than one external network can be specified."]))
        ∧ (countTruthy cns "external" ≤ 1 → countTruthy cns "management" > 1 →
            handle_networks networking rels nic_ids
              = .error (.nonRecoverable
                  ["No more than one management network can be specified."])) := by
  constructor
  · intro out hout
    unfold handle_networks at hout
    cases hg : get_connected_networks networking.connect_networks rels nic_ids with
    | error e => rw [hg] at hout; simp at hout
    | ok p =>
        obtain ⟨cns, ids⟩ := p
        rw [hg] at hout
        simp only at hout
        by_cases hemp : cns.isEmpty
        · rw [if_pos hemp] at hout
          have hnil : cns = [] := List.isEmpty_iff.mp hemp
          have : out = [] := by
            subst hnil
            simpa using hout.symm
          subst this
          exact ⟨by simp [countKeyTrue], by simp [countKeyTrue]⟩
        · rw [if_neg hemp] at hout
          by_cases hce : countTruthy cns "external" > 1
          · rw [if_pos hce] at hout; simp at hout
          · rw [if_neg hce] at hout
            by_cases hcm : countTruthy cns "management" > 1
            · rw [if_pos hcm] at hout; simp at hout
            · rw [if_neg hcm] at hout
              obtain ⟨vn, hva, hshape⟩ := reorderLoop_spec cns [] out hout
              have hndcns : ∀ n ∈ cns, (n.map Prod.fst).Nodup :=
                gcn_nodup rels networking.connect_networks nic_ids cns ids
                  hprops hrels hg
              have hmid : (vn.filter extTruthy).reverse ++ []
                  ++ vn.filter (fun n => !extTruthy n)
                  = (vn.filter extTruthy).reverse
                    ++ vn.filter (fun n => !extTruthy n) := by simp
              have hperm : out.Perm vn := by
                rw [hshape, hmid]
                exact ((List.reverse_perm _).append_right _).trans
                  (List.filter_append_perm _ vn)
              have hcext := validateAll_counts (k := "external")
                (by decide) (by decide) hndcns hva
              have hcmgm := validateAll_counts (k := "management")
                (by decide) (by decide) hndcns hva
              constructor
              · have : countKeyTrue out "external" = countKeyTrue vn "external" :=
                  (hperm.filter (hasKeyTrue "external")).length_eq
                rw [this, hcext.1]
                omega
              · have : countKeyTrue out "management" = countKeyTrue vn "management" :=
                  (hperm.filter (hasKeyTrue "management")).length_eq
                rw [this, hcmgm.1]
                omega
  · intro cns ids hg
    have hhn : handle_networks networking rels nic_ids
        = (if cns.isEmpty then .ok cns
           else if countTruthy cns "external" > 1 then
             .error (.nonRecoverable
               ["No more than one external network can be specified."])
           else if countTruthy cns "management" > 1 then
             .error (.nonRecoverable
               ["No more than one management network can be specified."])
           else reorderLoop cns []) := by
      unfold handle_networks
      rw [hg]
    constructor
    · intro hgt
      have hne : cns.isEmpty = false := by
        cases cns with
        | nil => simp [countTruthy] at hgt
        | cons a t => rfl
      rw [hhn, hne]
      simp [hgt]
    · intro hle hgt2
      have hne : cns.isEmpty = false := by
        cases cns with
        | nil => simp [countTruthy] at hgt2
        | cons a t => rfl
      have hnc : ¬(countTruthy cns "external" > 1) := by omega
      rw [hhn, hne]
      simp [hnc, hgt2]

/-- Witness for C7: validated two-network input keeps one external and
one management at most; duplicated `external = True` input raises the
error naming the external constraint. -/
theorem handle_networks_exclusivity_witness :
    (countKeyTrue [[("name", PVal.vStr "b"), ("external", PVal.vBool true),
        ("from_relationship", PVal.vBool false), ("management", PVal.vBool false),
        ("switch_distributed", PVal.vBool false), ("nsx_t_switch", PVal.vBool false),
        ("use_dhcp", PVal.vBool true), ("network", PVal.vNone),
        ("gateway", PVal.vNone), ("ip", PVal.vNone)],
       [("name", PVal.vStr "a"), ("from_relationship", PVal.vBool false),
        ("external", PVal.vBool false), ("management", PVal.vBool false),
        ("switch_distributed", PVal.vBool false), ("nsx_t_switch", PVal.vBool false),
        ("use_dhcp", PVal.vBool true), ("network", PVal.vNone),
        ("gateway", PVal.vNone), ("ip", PVal.vNone)]] "external" ≤ 1
      ∧ countKeyTrue [[("name", PVal.vStr "b"), ("external", PVal.vBool true),
        ("from_relationship", PVal.vBool false), ("management", PVal.vBool false),
        ("switch_distributed", PVal.vBool false), ("nsx_t_switch", PVal.vBool false),
        ("use_dhcp", PVal.vBool true), ("network", PVal.vNone),
        ("gateway", PVal.vNone), ("ip", PVal.vNone)],
       [("name", PVal.vStr "a"), ("from_relationship", PVal.vBool false),
        ("external", PVal.vBool false), ("management", PVal.vBool false),
        ("switch_distributed", PVal.vBool false), ("nsx_t_switch", PVal.vBool false),
        ("use_dhcp", PVal.vBool true), ("network", PVal.vNone),
        ("gateway", PVal.vNone), ("ip", PVal.vNone)]] "management" ≤ 1)
    ∧ handle_networks
        ⟨[[("name", .vStr "a"), ("external", .vBool true)],
          [("name", .vStr "b"), ("external", .vBool true)]]⟩ [] []
      = .error (.nonRecoverable
          ["No more than one external network can be specified."]) :=
  ⟨(handle_networks_exclusivity
      ⟨[[("name", .vStr "a")], [("name", .vStr "b"), ("external", .vBool true)]]⟩
      [] [] (by decide) (by simp)).1 _ (by decide),
   ((handle_networks_exclusivity
      ⟨[[("name", .vStr "a"), ("external", .vBool true)],
        [("name", .vStr "b"), ("external", .vBool true)]]⟩
      [] [] (by decide) (by simp)).2
      [[("name", .vStr "a"), ("external", .vBool true)],
       [("name", .vStr "b"), ("external", .vBool true)]] []
      (by decide)).1 (by decide)⟩

/-- C8.  Ordering rule: every successfully resolved topology is the
validated external entries (at most one, placed first) followed by the
remaining validated entries in their original relative order. -/
theorem handle_networks_external_first (networking : NetworkingParams)
    (rels : List RelNic) (nic_ids : List String) (out : List PyDict)
    (hprops : ∀ n ∈ networking.connect_networks, (n.map Prod.fst).Nodup)
    (hrels : ∀ r ∈ rels, ∀ cn, r.connected_network = some cn → (cn.map Prod.fst).Nodup)
    (hout : handle_networks networking rels nic_ids = .ok out) :
    ∃ cns ids vn,
      get_connected_networks networking.connect_networks rels nic_ids = .ok (cns, ids)
      ∧ validateAll cns = .ok vn
      ∧ (vn.filter extTruthy).length ≤ 1
      ∧ out = vn.filter extTruthy ++ vn.filter (fun n => !extTruthy n) := by
  unfold handle_networks at hout
  cases hg : get_connected_networks networking.connect_networks rels nic_ids with
  | error e => rw [hg] at hout; simp at hout
  | ok p =>
      obtain ⟨cns, ids⟩ := p
      rw [hg] at hout
      simp only at hout
      by_cases hemp : cns.isEmpty
      · rw [if_pos hemp] at hout
        have hnil : cns = [] := List.isEmpty_iff.mp hemp
        subst hnil
        have : out = [] := by simpa using hout.symm
        subst this
        exact ⟨[], ids, [], rfl, rfl, by simp, by simp⟩
      · rw [if_neg hemp] at hout
        by_cases hce : countTruthy cns "external" > 1
        · rw [if_pos hce] at hout; simp at hout
        · rw [if_neg hce] at hout
          by_cases hcm : countTruthy cns "management" > 1
          · rw [if_pos hcm] at hout; simp at hout
          · rw [if_neg hcm] at hout
            obtain ⟨vn, hva, hshape⟩ := reorderLoop_spec cns [] out hout
            have hndcns : ∀ n ∈ cns, (n.map Prod.fst).Nodup :=
              gcn_nodup rels networking.connect_networks nic_ids cns ids
                hprops hrels hg
            have hcext := validateAll_counts (k := "external")
              (by decide) (by decide) hndcns hva
            have hlen : (vn.filter extTruthy).length ≤ 1 := by
              have : (vn.filter extTruthy).length = countTruthy cns "external" := by
                have := hcext.2
                simpa [extTruthy] using this
              omega
            refine ⟨cns, ids, vn, rfl, hva, hlen, ?_⟩
            rw [hshape, reverse_of_length_le_one hlen]
            simp

/-- Witness for C8: `[{name: a}, {name: b, external: true}]` resolves to
`[b, a]` (after defaulting), the external-first layout. -/
theorem handle_networks_external_first_witness :
    handle_networks
        ⟨[[("name", .vStr "a")], [("name", .vStr "b"), ("external", .vBool true)]]⟩ [] []
      = .ok [[("name", PVal.vStr "b"), ("external", PVal.vBool true),
              ("from_relationship", PVal.vBool false), ("management", PVal.vBool false),
              ("switch_distributed", PVal.vBool false), ("nsx_t_switch", PVal.vBool false),
              ("use_dhcp", PVal.vBool true), ("network", PVal.vNone),
              ("gateway", PVal.vNone), ("ip", PVal.vNone)],
             [("name", PVal.vStr "a"), ("from_relationship", PVal.vBool false),
              ("external", PVal.vBool false), ("management", PVal.vBool false),
              ("switch_distributed", PVal.vBool false), ("nsx_t_switch", PVal.vBool false),
              ("use_dhcp", PVal.vBool true), ("network", PVal.vNone),
              ("gateway", PVal.vNone), ("ip", PVal.vNone)]]
    ∧ ∃ cns ids vn,
        get_connected_networks
            [[("name", .vStr "a")], [("name", .vStr "b"), ("external", .vBool true)]]
            [] []
          = .ok (cns, ids)
        ∧ validateAll cns = .ok vn
        ∧ (vn.filter extTruthy).length ≤ 1
        ∧ [[("name", PVal.vStr "b"), ("external", PVal.vBool true),
            ("from_relationship", PVal.vBool false), ("management", PVal.vBool false),
            ("switch_distributed", PVal.vBool false), ("nsx_t_switch", PVal.vBool false),
            ("use_dhcp", PVal.vBool true), ("network", PVal.vNone),
            ("gateway", PVal.vNone), ("ip", PVal.vNone)],
           [("name", PVal.vStr "a"), ("from_relationship", PVal.vBool false),
            ("external", PVal.vBool false), ("management", PVal.vBool false),
            ("switch_distributed", PVal.vBool false), ("nsx_t_switch", PVal.vBool false),
            ("use_dhcp", PVal.vBool true), ("network", PVal.vNone),
            ("gateway", PVal.vNone), ("ip", PVal.vNone)]]
          = vn.filter extTruthy ++ vn.filter (fun n => !extTruthy n) :=
  ⟨by decide,
   handle_networks_external_first
     ⟨[[("name", .vStr "a")], [("name", .vStr "b"), ("external", .vBool true)]]⟩
     [] [] _ (by decide) (by simp) (by decide)⟩

/-! ## Readiness Poller: `get_state` -/

/-- One guest-reported network interface: the network name and the
IP addresses the guest reports for it. -/
structure GuestNic where
  network : String
  ips : List String
deriving DecidableEq, Repr

/-- The platform object as `get_state` observes it.  `summary_guest`
models `summary.guest.ipAddress` for the `os_family == "other"` path:
`none` is the `AttributeError` case, `some ip?` the attribute value. -/
structure GSServerObj where
  name : String
  guest_running : Bool
  guest_net : List GuestNic
  summary_guest : Option (Option String)
deriving DecidableEq, Repr

/-- The runtime-property slice `get_state` reads and writes
(`NETWORKS`, `IP`, `PUBLIC_IP`). -/
structure GSRt where
  networks : Option (List NicRT)
  ip : Option String
  public_ip : Option String
deriving DecidableEq, Repr

/-- The observable outcome of a successful `get_state` (which always
returns `True`): the updated runtime properties and the final values of
the `default_ip` / `manager_network_ip` / `public_ips` locals. -/
structure GSOut where
  rt : GSRt
  default_ip : Option String
  manager_network_ip : Option String
  public_ips : List (Option String)
deriving DecidableEq, Repr

/-- Modelled from the spec: `get_ip_from_vsphere_nic_ips`
(`vsphere_plugin_common.clients.server`, not under `src/`) records the
first IP a nic reports. -/
def get_ip_from_vsphere_nic_ips (nic : GuestNic) : Option String :=
  nic.ips.head?

/-- The `for net in nets` update of the persisted `NETWORKS` entries:
every entry of the same name gets the freshly observed IP
(`net['name']` raises `KeyError` when absent). -/
def updateNetsList (network_name : String) (ip : Option String) :
    List NicRT → Except PyError (List NicRT)
  | [] => .ok []
  | n :: rest =>
      match n.name with
      | none => .error (.keyError "name")
      | some nm =>
          let n1 := if nm == network_name then { n with ip := ip } else n
          match updateNetsList network_name ip rest with
          | .error e => .error e
          | .ok rest1 => .ok (n1 :: rest1)

/-- Iterating `nets` when the `NETWORKS` runtime property was never set
raises `TypeError`. -/
def updateNets (network_name : String) (ip : Option String) :
    Option (List NicRT) → Except PyError (Option (List NicRT))
  | none => .error (.typeError "NoneType object is not iterable")
  | some l =>
      match updateNetsList network_name ip l with
      | .error e => .error e
      | .ok l1 => .ok (some l1)

/-- The `for network in server_obj.guest.net` loop: record the first IP
as default, track the management IP (retrying when the candidate
management IP is absent), and push observed IPs into the persisted
network list. -/
def guestNetLoop (mnn : Option PVal) :
    List GuestNic → Option String → Option String → Option (List NicRT) →
    Except PyError (Option String × Option String × Option (List NicRT))
  | [], default_ip, manager_ip, nets => .ok (default_ip, manager_ip, nets)
  | nic :: rest, default_ip, manager_ip, nets =>
      let network_name := nic.network
      let default_ip1 :=
        if !truthyOS default_ip then get_ip_from_vsphere_nic_ips nic else default_ip
      let same_net :=
        match mnn with
        | none => false
        | some m => pyEq (.vStr network_name) m
      let mgmtCond :=
        !truthyOS manager_ip
        || (match mnn with
            | none => false
            | some m => pyTruthy m && same_net)
      if mgmtCond then
        match get_ip_from_vsphere_nic_ips nic with
        | none => .error (.operationRetry "Management IP addresses not yet assigned.")
        | some mip =>
            match updateNets network_name (get_ip_from_vsphere_nic_ips nic) nets with
            | .error e => .error e
            | .ok nets1 => guestNetLoop mnn rest default_ip1 (some mip) nets1
      else
        match updateNets network_name (get_ip_from_vsphere_nic_ips nic) nets with
        | .error e => .error e
        | .ok nets1 => guestNetLoop mnn rest default_ip1 manager_ip nets1

/-- The `management_networks` comprehension: names of the declared
networks with a truthy `management` flag (`network['name']` raises
`KeyError` when absent). -/
def managementNames : List PyDict → Except PyError (List PVal)
  | [] => .ok []
  | n :: rest =>
      if pyTruthy (dictGetD n "management" (.vBool false)) then
        match dictGet? n "name" with
        | none => .error (.keyError "name")
        | some nm =>
            match managementNames rest with
            | .error e => .error e
            | .ok rest1 => .ok (nm :: rest1)
      else managementNames rest

/-- The `public_ips` comprehension: `get_server_ip` of every declared
network with a truthy `external` flag. -/
def publicIpsOf (get_server_ip : PVal → Option String) :
    List PyDict → Except PyError (List (Option String))
  | [] => .ok []
  | n :: rest =>
      if pyTruthy (dictGetD n "external" (.vBool false)) then
        match dictGet? n "name" with
        | none => .error (.keyError "name")
        | some nm =>
            match publicIpsOf get_server_ip rest with
            | .error e => .error e
            | .ok rest1 => .ok (get_server_ip nm :: rest1)
      else publicIpsOf get_server_ip rest

/-- `management_networks[0] if len(management_networks) == 1 else None`. -/
def mnnOf (mgmt : List PVal) : Option PVal :=
  match mgmt with
  | [m] => some m
  | _ => none

/-- The body of `get_state` once the server is considered running: the
guest loop, the management retry check, the IP persistence, the
`wait_ip` retry and the public-IP resolution. -/
def get_state_running (obj : GSServerObj) (networking : NetworkingParams)
    (wait_ip : Bool) (rt : GSRt) (get_server_ip : PVal → Option String)
    (default_ip0 manager_ip0 public_ip0 : Option String) :
    Except PyError GSOut :=
  match managementNames networking.connect_networks with
  | .error e => .error e
  | .ok mgmt =>
      let mnn := mnnOf mgmt
      match guestNetLoop mnn obj.guest_net default_ip0 manager_ip0 rt.networks with
      | .error e => .error e
      | .ok (default_ip, manager_ip, nets) =>
          let mnnTruthy :=
            match mnn with
            | none => false
            | some m => pyTruthy m
          if mnnTruthy && !truthyOS manager_ip then
            .error (.operationRetry "Management IP addresses not yet assigned.")
          else
            let the_ip := if truthyOS manager_ip then manager_ip else default_ip
            let rt1 := { rt with networks := nets, ip := the_ip }
            if !truthyOS the_ip && wait_ip then
              .error (.operationRetry "IP address not yet exported.")
            else
              if obj.guest_net.length != 0 then
                match publicIpsOf get_server_ip networking.connect_networks with
                | .error e => .error e
                | .ok pips =>
                    if pips.isEmpty then
                      .ok { rt := { rt1 with public_ip := none },
                            default_ip := default_ip,
                            manager_network_ip := manager_ip, public_ips := pips }
                    else if pips.contains none then
                      .error (.operationRetry "Public IP addresses not yet assigned.")
                    else
                      .ok { rt := { rt1 with
                              public_ip := pips.head?.getD none },
                            default_ip := default_ip,
                            manager_network_ip := manager_ip, public_ips := pips }
              else if truthyOS public_ip0 then
                .ok { rt := { rt1 with public_ip := public_ip0 },
                      default_ip := default_ip,
                      manager_network_ip := manager_ip,
                      public_ips := [public_ip0] }
              else
                .ok { rt := { rt1 with public_ip := none },
                      default_ip := default_ip,
                      manager_network_ip := manager_ip, public_ips := [] }

/-- `get_state(server, networking, os_family, wait_ip)` (invoked without
a `minimum_wait_time`, whose only effect is sleeping).  The
`enable_start_vm` parameter is the node property consulted on the
not-yet-started path. -/
def get_state (server_obj : Option GSServerObj) (c : LifecycleCtx)
    (server : ServerProps) (networking : NetworkingParams)
    (os_family : String) (wait_ip : Bool) (enable_start_vm : Bool)
    (rt : GSRt) (get_server_ip : PVal → Option String) :
    Except PyError GSOut :=
  match server_obj with
  | none =>
      .error (.nonRecoverable
        ["Cannot get info - server doesn't exist for node: " ++ c.instance_id])
  | some obj =>
      match get_vm_name c.rt_name server c.instance_id os_family with
      | .error e => .error e
      | .ok _vm_name =>
          if os_family == "other" then
            match obj.summary_guest with
            | none =>
                .ok { rt := rt, default_ip := none,
                      manager_network_ip := none, public_ips := [] }
            | some ipOpt =>
                if (truthyOS ipOpt && truthyOS ipOpt) || obj.guest_running then
                  get_state_running obj networking wait_ip rt get_server_ip
                    ipOpt ipOpt ipOpt
                else if !enable_start_vm then
                  .ok { rt := rt, default_ip := ipOpt,
                        manager_network_ip := ipOpt, public_ips := [] }
                else .error (.operationRetry "Server not yet started.")
          else
            if obj.guest_running then
              get_state_running obj networking wait_ip rt get_server_ip
                none none none
            else if !enable_start_vm then
              .ok { rt := rt, default_ip := none,
                    manager_network_ip := none, public_ips := [] }
            else .error (.operationRetry "Server not yet started.")

/-- C3 (counterexample).  A running server whose guest reports zero
network interfaces does NOT always make `get_state` signal retry-later:
with `wait_ip` unset and no management network declared, `get_state`
returns success (with no IP) instead of raising `OperationRetry`. -/
theorem get_state_zero_interfaces_can_succeed :
    get_state
        (some { name := "srv", guest_running := true, guest_net := [],
                summary_guest := none })
        { instance_id := "srv_1", resource_external := false,
          server_id := some "vm-42", rt_name := some "srv-1" }
        { name := none, add_scale_suffix := none }
        ⟨[]⟩ "linux" false true
        { networks := some [], ip := none, public_ip := none }
        (fun _ => none)
      = .ok { rt := { networks := some [], ip := none, public_ip := none },
              default_ip := none, manager_network_ip := none,
              public_ips := [] } := by
  decide

lemma updateNetsList_ok {l : List NicRT} (nm : String) (ip : Option String)
    (h : ∀ n ∈ l, n.name.isSome) : ∃ l1, updateNetsList nm ip l = .ok l1 := by
  induction l with
  | nil => exact ⟨[], rfl⟩
  | cons n rest ih =>
      obtain ⟨l1, hl1⟩ := ih (fun m hm => h m (by simp [hm]))
      cases hn : n.name with
      | none => exact absurd (hn ▸ h n (by simp)) (by simp)
      | some s =>
          refine ⟨(if s == nm then { n with ip := ip } else n) :: l1, ?_⟩
          unfold updateNetsList
          rw [hn, hl1]

/-- C3 (amended).  Readiness polling, as the code behaves:
(a) for a running server whose guest reports zero interfaces,
`get_state` signals a recoverable retry whenever `wait_ip` is set or
exactly one management network with a truthy name is declared (with
`wait_ip` unset and no such management network it instead succeeds with
no IP — the counterexample);
(b) when the guest reports exactly one interface carrying a non-empty
IP, no management network is declared, and every declared external
network resolves to an IP, `get_state` succeeds using that interface's
first IP as both the default IP and the management IP (and persists it
as the instance IP). -/
theorem get_state_readiness_amended :
    (∀ (obj : GSServerObj) (c : LifecycleCtx) (server : ServerProps)
        (networking : NetworkingParams) (os_family : String)
        (wait_ip enable_start_vm : Bool) (rt : GSRt)
        (gsi : PVal → Option String) (nm : String) (mgmt : List PVal),
      obj.guest_running = true → obj.guest_net = [] → os_family ≠ "other" →
      c.rt_name = some nm →
      managementNames networking.connect_networks = .ok mgmt →
      ((∃ m, mgmt = [m] ∧ pyTruthy m = true) ∨ wait_ip = true) →
      ∃ msg, get_state (some obj) c server networking os_family wait_ip
          enable_start_vm rt gsi = .error (.operationRetry msg))
    ∧ (∀ (obj : GSServerObj) (c : LifecycleCtx) (server : ServerProps)
        (networking : NetworkingParams) (os_family : String)
        (wait_ip enable_start_vm : Bool) (rt : GSRt)
        (gsi : PVal → Option String) (nm : String)
        (nic : GuestNic) (ip0 : String) (l : List NicRT)
        (pips : List (Option String)),
      obj.guest_running = true → obj.guest_net = [nic] → os_family ≠ "other" →
      c.rt_name = some nm →
      get_ip_from_vsphere_nic_ips nic = some ip0 → ip0 ≠ "" →
      managementNames networking.connect_networks = .ok [] →
      rt.networks = some l → (∀ n ∈ l, n.name.isSome) →
      publicIpsOf gsi networking.connect_networks = .ok pips →
      pips.contains none = false →
      ∃ out, get_state (some obj) c server networking os_family wait_ip
          enable_start_vm rt gsi = .ok out
        ∧ out.default_ip = some ip0 ∧ out.manager_network_ip = some ip0
        ∧ out.rt.ip = some ip0) := by
  constructor
  · intro obj c server networking os_family wait_ip enable_start_vm rt gsi nm mgmt
      hrun hnet hos hname hmgmt hcase
    have hgvm : get_vm_name c.rt_name server c.instance_id os_family = .ok nm := by
      rw [hname]; rfl
    have hosb : (os_family == "other") = false := by
      cases hob : os_family == "other"
      · rfl
      · exact absurd (eq_of_beq hob) hos
    have hgl : guestNetLoop (mnnOf mgmt) obj.guest_net none none rt.networks
        = .ok (none, none, rt.networks) := by
      rw [hnet]; rfl
    unfold get_state
    rw [hgvm]
    simp only [hosb, hrun, Bool.false_eq_true, if_false, if_true]
    unfold get_state_running
    rw [hmgmt]
    simp only
    rw [hgl]
    simp only
    rcases hcase with ⟨m, hm, htm⟩ | hw
    · subst hm
      refine ⟨"Management IP addresses not yet assigned.", ?_⟩
      simp [mnnOf, htm, truthyOS]
    · cases hmn : mnnOf mgmt with
      | none =>
          refine ⟨"IP address not yet exported.", ?_⟩
          simp [truthyOS, hw]
      | some m =>
          by_cases htm : pyTruthy m = true
          · refine ⟨"Management IP addresses not yet assigned.", ?_⟩
            simp [truthyOS, htm]
          · refine ⟨"IP address not yet exported.", ?_⟩
            simp [truthyOS, htm, hw]
  · intro obj c server networking os_family wait_ip enable_start_vm rt gsi nm
      nic ip0 l pips hrun hnet hos hname hip hip0 hmgmt hrtn hnames hpub hnone
    have hgvm : get_vm_name c.rt_name server c.instance_id os_family = .ok nm := by
      rw [hname]; rfl
    have hosb : (os_family == "other") = false := by
      cases hob : os_family == "other"
      · rfl
      · exact absurd (eq_of_beq hob) hos
    obtain ⟨l1, hl1⟩ := updateNetsList_ok nic.network (some ip0) (l := l) hnames
    have hgl : guestNetLoop (mnnOf []) obj.guest_net none none rt.networks
        = .ok (some ip0, some ip0, some l1) := by
      rw [hnet, hrtn]
      unfold guestNetLoop
      simp only [truthyOS, Bool.not_false, mnnOf, Bool.true_or, if_true]
      rw [hip]
      simp only
      unfold updateNets
      simp only
      rw [hl1]
      rfl
    have htip : truthyOS (some ip0 : Option String) = true := by
      unfold truthyOS
      cases hie : ip0.isEmpty
      · simp [hie]
      · exact absurd ((String.isEmpty_iff ip0).mp hie) hip0
    unfold get_state
    rw [hgvm]
    simp only [hosb, hrun, Bool.false_eq_true, if_false, if_true]
    unfold get_state_running
    rw [hmgmt]
    simp only
    rw [hgl]
    simp only [mnnOf, Bool.false_and, Bool.false_eq_true, if_false]
    simp only [htip, if_true, Bool.not_true, Bool.false_and, Bool.false_eq_true,
      if_false]
    have hlen : (obj.guest_net.length != 0) = true := by
      rw [hnet]; rfl
    rw [hlen]
    simp only [if_true]
    rw [hpub]
    simp only
    cases hpe : pips.isEmpty
    · rw [hnone]
      simp only [Bool.false_eq_true, if_false]
      exact ⟨_, rfl, rfl, rfl, rfl⟩
    · simp only [if_true]
      exact ⟨_, rfl, rfl, rfl, rfl⟩

/-- Witness for the amended C3: part (a) at a concrete declared
management network with zero reported interfaces (retry), part (b) at a
single interface reporting `10.0.0.7` (success, IP used as default and
management). -/
theorem get_state_readiness_amended_witness :
    (∃ msg, get_state
        (some { name := "srv", guest_running := true, guest_net := [],
                summary_guest := none })
        { instance_id := "srv_1", resource_external := false,
          server_id := some "vm-42", rt_name := some "srv-1" }
        { name := none, add_scale_suffix := none }
        ⟨[[("name", .vStr "mgmt-net"), ("management", .vBool true)]]⟩
        "linux" false true
        { networks := some [], ip := none, public_ip := none }
        (fun _ => none)
      = .error (.operationRetry msg))
    ∧ (∃ out, get_state
        (some { name := "srv", guest_running := true,
                guest_net := [{ network := "net1", ips := ["10.0.0.7", "10.0.0.8"] }],
                summary_guest := none })
        { instance_id := "srv_1", resource_external := false,
          server_id := some "vm-42", rt_name := some "srv-1" }
        { name := none, add_scale_suffix := none }
        ⟨[]⟩ "linux" false true
        { networks := some [{ name := some "net1", mac := some "AA", ip := none }],
          ip := none, public_ip := none }
        (fun _ => none)
      = .ok out
      ∧ out.default_ip = some "10.0.0.7" ∧ out.manager_network_ip = some "10.0.0.7"
      ∧ out.rt.ip = some "10.0.0.7") :=
  ⟨get_state_readiness_amended.1
      { name := "srv", guest_running := true, guest_net := [], summary_guest := none }
      { instance_id := "srv_1", resource_external := false,
        server_id := some "vm-42", rt_name := some "srv-1" }
      { name := none, add_scale_suffix := none }
      ⟨[[("name", .vStr "mgmt-net"), ("management", .vBool true)]]⟩
      "linux" false true
      { networks := some [], ip := none, public_ip := none }
      (fun _ => none) "srv-1" [.vStr "mgmt-net"]
      rfl rfl (by decide) rfl (by decide)
      (Or.inl ⟨.vStr "mgmt-net", rfl, by decide⟩),
   get_state_readiness_amended.2
      { name := "srv", guest_running := true,
        guest_net := [{ network := "net1", ips := ["10.0.0.7", "10.0.0.8"] }],
        summary_guest := none }
      { instance_id := "srv_1", resource_external := false,
        server_id := some "vm-42", rt_name := some "srv-1" }
      { name := none, add_scale_suffix := none }
      ⟨[]⟩ "linux" false true
      { networks := some [{ name := some "net1", mac := some "AA", ip := none }],
        ip := none, public_ip := none }
      (fun _ => none) "srv-1"
      { network := "net1", ips := ["10.0.0.7", "10.0.0.8"] } "10.0.0.7"
      [{ name := some "net1", mac := some "AA", ip := none }] []
      rfl rfl (by decide) rfl rfl (by decide) rfl rfl (by decide) rfl rfl⟩

end VspherePlugin
